import Mathlib

/-!
Verification model of the `embedded-tls` wire codec, extension dispatch,
handshake transcript rule and record header logic.

Bytes are modelled as `Nat` values (wire inputs are quantified with `< 256`
bounds where byte-ness matters).  Fallible Rust functions returning
`Result<T, E>` become `Except E T`; `&mut ParseBuffer` state is passed
explicitly, so a Rust `fn parse(buf: &mut ParseBuffer) -> Result<T, E>`
becomes `ParseBuffer → Except E (T × ParseBuffer)`.

The file `src/parse_buffer.rs` is not part of the provided sources; the
`ParseBuffer` operations below are modelled from the specification (§3, §4.1:
a view `(bytes, pos)`, reads advance `pos`, `slice(n)` returns a
sub-buffer over exactly those `n` bytes and advances the parent, failures
are `InsufficientSpace`) together with their call sites in the provided
sources (`RemoteHandshake::read` indexes `as_slice()` with absolute
offsets, so `as_slice` exposes the whole underlying buffer).
-/

/-- `ParseError` from `parse_buffer.rs` (declared in the spec §4.1/§7). -/
inductive ParseError where
  | insufficientSpace
  | invalidData
deriving DecidableEq, Repr

/-- `AlertLevel` from `alert.rs` (spec §7: alert levels Warning/Fatal). -/
inductive AlertLevel where
  | warning
  | fatal
deriving DecidableEq, Repr

/-- `AlertDescription` variants used by the provided sources (spec §7). -/
inductive AlertDescription where
  | closeNotify
  | illegalParameter
  | decodeErrorAlert
  | unexpectedMessage
  | badRecordMac
  | handshakeFailure
deriving DecidableEq, Repr

/-- `TlsError` (spec §6: errors surfaced at the boundary). -/
inductive TlsError where
  | encodeError
  | decodeError
  | invalidRecord
  | invalidHandshake
  | invalidCipherSuite
  | invalidSessionIdLength
  | invalidExtensionsLength
  | unknownExtensionType
  | unimplemented
  | abortHandshake (level : AlertLevel) (description : AlertDescription)
deriving DecidableEq, Repr

/-- A borrowed read cursor: `(bytes: &[u8], pos: usize)` (spec §3). -/
structure ParseBuffer where
  bytes : List Nat
  pos : Nat
deriving DecidableEq, Repr

namespace ParseBuffer

/-- `ParseBuffer::new`. -/
def new (b : List Nat) : ParseBuffer := ⟨b, 0⟩

/-- `ParseBuffer::remaining`. -/
def remaining (b : ParseBuffer) : Nat := b.bytes.length - b.pos

/-- `ParseBuffer::is_empty`. -/
def isEmpty (b : ParseBuffer) : Bool := b.remaining = 0

/-- `ParseBuffer::offset`: the current cursor position. -/
def offset (b : ParseBuffer) : Nat := b.pos

/-- `ParseBuffer::as_slice`: the whole underlying buffer.  (The call
`buf.as_slice()[handshake_start..handshake_end]` in `RemoteHandshake::read`
indexes it with absolute offsets.) -/
def asSlice (b : ParseBuffer) : List Nat := b.bytes

/-- `ParseBuffer::read_u8`. -/
def readU8 (b : ParseBuffer) : Except ParseError (Nat × ParseBuffer) :=
  match b.bytes.drop b.pos with
  | [] => .error .insufficientSpace
  | v :: _ => .ok (v, ⟨b.bytes, b.pos + 1⟩)

/-- `ParseBuffer::read_u16` (big-endian). -/
def readU16 (b : ParseBuffer) : Except ParseError (Nat × ParseBuffer) :=
  match b.readU8 with
  | .error e => .error e
  | .ok (hi, b) =>
    match b.readU8 with
    | .error e => .error e
    | .ok (lo, b) => .ok (256 * hi + lo, b)

/-- `ParseBuffer::read_u24` (big-endian). -/
def readU24 (b : ParseBuffer) : Except ParseError (Nat × ParseBuffer) :=
  match b.readU8 with
  | .error e => .error e
  | .ok (hi, b) =>
    match b.readU16 with
    | .error e => .error e
    | .ok (lo, b) => .ok (65536 * hi + lo, b)

/-- `ParseBuffer::read_u32` (big-endian). -/
def readU32 (b : ParseBuffer) : Except ParseError (Nat × ParseBuffer) :=
  match b.readU16 with
  | .error e => .error e
  | .ok (hi, b) =>
    match b.readU16 with
    | .error e => .error e
    | .ok (lo, b) => .ok (65536 * hi + lo, b)

/-- `ParseBuffer::slice(n)`: a sub-buffer over exactly the next `n` bytes;
the parent advances by `n`. -/
def slice (b : ParseBuffer) (n : Nat) : Except ParseError (ParseBuffer × ParseBuffer) :=
  if b.pos + n ≤ b.bytes.length then
    .ok (⟨(b.bytes.drop b.pos).take n, 0⟩, ⟨b.bytes, b.pos + n⟩)
  else
    .error .insufficientSpace

/-- `ParseBuffer::fill(dst)` for a destination of length `n`: reads `n`
bytes, returning them. -/
def fill (b : ParseBuffer) (n : Nat) : Except ParseError (List Nat × ParseBuffer) :=
  if b.pos + n ≤ b.bytes.length then
    .ok ((b.bytes.drop b.pos).take n, ⟨b.bytes, b.pos + n⟩)
  else
    .error .insufficientSpace

end ParseBuffer

/-- Big-endian two-byte encoding of a `u16` value. -/
def u16Bytes (n : Nat) : List Nat := [n / 256 % 256, n % 256]

/-- Modelled from the spec: `ExtensionType` lives in `src/extensions/mod.rs`,
which is not among the provided sources.  The spec (§4.3 and §6) fixes the
supported IANA subset: the RFC 8446 §4.2 extension codepoints used by the
per-message tables, plus CompressCertificate (RFC 8879, listed for
CertificateRequest). -/
inductive ExtensionType where
  | serverName
  | maxFragmentLength
  | statusRequest
  | supportedGroups
  | signatureAlgorithms
  | useSrtp
  | heartbeat
  | applicationLayerProtocolNegotiation
  | signedCertificateTimestamp
  | clientCertificateType
  | serverCertificateType
  | padding
  | compressCertificate
  | preSharedKey
  | earlyData
  | supportedVersions
  | cookie
  | pskKeyExchangeModes
  | certificateAuthorities
  | oidFilters
  | postHandshakeAuth
  | signatureAlgorithmsCert
  | keyShare
deriving DecidableEq, Repr

namespace ExtensionType

/-- IANA codepoint of each supported extension type (RFC 8446 §4.2). -/
def code : ExtensionType → Nat
  | .serverName => 0
  | .maxFragmentLength => 1
  | .statusRequest => 5
  | .supportedGroups => 10
  | .signatureAlgorithms => 13
  | .useSrtp => 14
  | .heartbeat => 15
  | .applicationLayerProtocolNegotiation => 16
  | .signedCertificateTimestamp => 18
  | .clientCertificateType => 19
  | .serverCertificateType => 20
  | .padding => 21
  | .compressCertificate => 27
  | .preSharedKey => 41
  | .earlyData => 42
  | .supportedVersions => 43
  | .cookie => 44
  | .pskKeyExchangeModes => 45
  | .certificateAuthorities => 47
  | .oidFilters => 48
  | .postHandshakeAuth => 49
  | .signatureAlgorithmsCert => 50
  | .keyShare => 51

/-- Inverse codepoint lookup: `None` for every value outside the supported
IANA subset. -/
def ofCode : Nat → Option ExtensionType
  | 0 => some .serverName
  | 1 => some .maxFragmentLength
  | 5 => some .statusRequest
  | 10 => some .supportedGroups
  | 13 => some .signatureAlgorithms
  | 14 => some .useSrtp
  | 15 => some .heartbeat
  | 16 => some .applicationLayerProtocolNegotiation
  | 18 => some .signedCertificateTimestamp
  | 19 => some .clientCertificateType
  | 20 => some .serverCertificateType
  | 21 => some .padding
  | 27 => some .compressCertificate
  | 41 => some .preSharedKey
  | 42 => some .earlyData
  | 43 => some .supportedVersions
  | 44 => some .cookie
  | 45 => some .pskKeyExchangeModes
  | 47 => some .certificateAuthorities
  | 48 => some .oidFilters
  | 49 => some .postHandshakeAuth
  | 50 => some .signatureAlgorithmsCert
  | 51 => some .keyShare
  | _ => none

/-- Modelled from the spec: `ExtensionType::parse` reads a big-endian `u16`
and rejects codepoints outside the supported subset with
`ParseError::InvalidData` (spec §4.3 step 3: an unknown type becomes the
distinguished `UnknownExtensionType`, which the generated group parser maps
from `InvalidData`).  The result is returned together with the buffer state,
because the generated group parser captures the `Result` and keeps reading
from the same buffer before inspecting it. -/
def parseCaptured (b : ParseBuffer) : (Except ParseError ExtensionType) × ParseBuffer :=
  match b.readU16 with
  | .error e => (.error e, b)
  | .ok (v, b) =>
    match ofCode v with
    | some t => (.ok t, b)
    | none => (.error .invalidData, b)

end ExtensionType

/-- The dispatch table of one `extension_group!` invocation: for each
extension type, either the body parser of the matching enum variant
(composed with the variant constructor), or `none` when the enum has no
variant for that type (the generated match's fall-through arm). -/
def ExtensionDispatch (α : Type) := ExtensionType → Option (ParseBuffer → Except ParseError α)

/-- The `parse` function generated by `extension_group!`
(`extension_group_macro.rs` lines 81–118): read the `u16` extension type
(capturing the result), the `u16` data length, slice that many bytes, then
dispatch.  An unknown type becomes `UnknownExtensionType`; a recognized type
with no variant in this group aborts with `IllegalParameter`; a body-parser
failure becomes `DecodeError`. -/
def extensionGroupParse {α : Type} (dispatch : ExtensionDispatch α) (buf : ParseBuffer) :
    Except TlsError α × ParseBuffer :=
  match ExtensionType.parseCaptured buf with
  | (extensionType, buf) =>
  match buf.readU16 with
  | .error _ => (.error .decodeError, buf)
  | .ok (dataLen, buf) =>
    match buf.slice dataLen with
    | .error _ => (.error .decodeError, buf)
    | .ok (extData, buf) =>
      match extensionType with
      | .error .invalidData => (.error .unknownExtensionType, buf)
      | .error _ => (.error .decodeError, buf)
      | .ok t =>
        match dispatch t with
        | some p =>
          (match p extData with
           | .ok v => .ok v
           | .error _ => .error .decodeError, buf)
        | none => (.error (.abortHandshake .fatal .illegalParameter), buf)

/-- The drain loop of the generated `parse_vector`
(`extension_group_macro.rs` lines 131–144): while the sliced extensions
buffer is non-empty, parse one extension; push it on success (the
`heapless::Vec<Self, N>` push fails with `DecodeError` when the vector
already holds `cap` elements), skip it on `UnknownExtensionType`, abort on
any other error.  `fuel` bounds the recursion; every continuing iteration
consumes at least four bytes, so the caller's choice `remaining + 1` never
runs out (see `extensionGroupParseVectorLoop_fuel`). -/
def extensionGroupParseVectorLoop {α : Type} (dispatch : ExtensionDispatch α) (cap : Nat) :
    Nat → ParseBuffer → List α → Except TlsError (List α)
  | 0, _, _ => .error .decodeError
  | fuel + 1, buf, acc =>
    if buf.isEmpty then .ok acc
    else
      match extensionGroupParse dispatch buf with
      | (.ok e, b) =>
        if acc.length < cap then extensionGroupParseVectorLoop dispatch cap fuel b (acc ++ [e])
        else .error .decodeError
      | (.error .unknownExtensionType, b) => extensionGroupParseVectorLoop dispatch cap fuel b acc
      | (.error e, _) => .error e

/-- The `parse_vector` function generated by `extension_group!`
(`extension_group_macro.rs` lines 120–148): read the `u16` total extensions
length (failure: `InvalidExtensionsLength`), slice that region (failure
converts `ParseError` to `TlsError`, modelled as `DecodeError` per spec §7:
parse errors map to decode errors), then drain it. -/
def extensionGroupParseVector {α : Type} (dispatch : ExtensionDispatch α) (cap : Nat)
    (buf : ParseBuffer) : Except TlsError (List α) × ParseBuffer :=
  match buf.readU16 with
  | .error _ => (.error .invalidExtensionsLength, buf)
  | .ok (extensionsLen, buf) =>
    match buf.slice extensionsLen with
    | .error _ => (.error .decodeError, buf)
    | .ok (extBuf, buf) =>
      (extensionGroupParseVectorLoop dispatch cap (extBuf.remaining + 1) extBuf [], buf)

/-- The outcome of the generated `parse` once the type word, length word and
data slice have been read: dispatch on the (possibly unknown) extension
type, running the matching variant's body parser on the sliced data. -/
def extensionGroupOutcome {α : Type} (dispatch : ExtensionDispatch α)
    (t : Option ExtensionType) (data : List Nat) : Except TlsError α :=
  match t with
  | none => .error .unknownExtensionType
  | some t =>
    match dispatch t with
    | some p =>
      match p ⟨data, 0⟩ with
      | .ok v => .ok v
      | .error _ => .error .decodeError
    | none => .error (.abortHandshake .fatal .illegalParameter)

/-- A buffer `B` views the same remaining data as `S`, shifted by `k`
already-consumed bytes at the front of `B`'s underlying slice. -/
def BufShift (k : Nat) (B S : ParseBuffer) : Prop :=
  k ≤ B.bytes.length ∧ B.bytes.drop k = S.bytes ∧ B.pos = S.pos + k

/-- Modelled from the spec: `CryptoBuffer` (`buffer.rs` is not among the
provided sources).  Encoders are modelled as producers of the byte list they
append; `with_u8_length`/`with_u16_length` (spec §3, §4.1) reserve the
length field and back-patch the big-endian length of the body region.  The
spec's length-prefix property (§8) is stated for body sizes up to
`2^N − 1`; larger bodies are modelled as an `EncodeError`.  Capacity
exhaustion of the real caller-supplied buffer is not modelled: a successful
model encode corresponds to a real encode with sufficient capacity. -/
def withU8Length (body : List Nat) : Except TlsError (List Nat) :=
  if body.length ≤ 255 then .ok (body.length :: body) else .error .encodeError

/-- Modelled from the spec: `CryptoBuffer::with_u16_length` under the same
model as `withU8Length`. -/
def withU16Length (body : List Nat) : Except TlsError (List Nat) :=
  if body.length ≤ 65535 then .ok (u16Bytes body.length ++ body) else .error .encodeError

/-- The validation loop of `ZerocopyList::parse` (`parse_encode.rs` lines
102–116): while the buffer is non-empty, parse one item (only to validate);
stop at the first error.  `fuel` bounds the recursion; every item parser
used with it consumes at least one byte per item, so `remaining + 1` fuel
never runs out on the inputs evaluated here. -/
def zerocopyValidate {α : Type} (p : ParseBuffer → Except ParseError (α × ParseBuffer)) :
    Nat → ParseBuffer → Except ParseError ParseBuffer
  | 0, _ => .error .insufficientSpace
  | fuel + 1, b =>
    if b.isEmpty then .ok b
    else
      match p b with
      | .error e => .error e
      | .ok (_, b2) => zerocopyValidate p fuel b2

/-- `ZerocopyList::parse`: record the whole region (`buf.as_slice()`), then
validate that it is a concatenation of well-formed items.  (All call sites
in the sources pass a freshly sliced sub-buffer, so `as_slice` is exactly
the region being validated.) -/
def zerocopyListParse {α : Type} (p : ParseBuffer → Except ParseError (α × ParseBuffer))
    (b : ParseBuffer) : Except ParseError (List Nat × ParseBuffer) :=
  match zerocopyValidate p (b.remaining + 1) b with
  | .error e => .error e
  | .ok b2 => .ok (b.asSlice, b2)

/-- The `Parse` impl generated by `parse_encode_list!` with a `u16` length
prefix (`parse_encode.rs` lines 209–217): read the length, slice that
region, validate it as a `ZerocopyList`; the stored value is the raw
region. -/
def parseEncodeListParseU16 {α : Type} (p : ParseBuffer → Except ParseError (α × ParseBuffer))
    (b : ParseBuffer) : Except ParseError (List Nat × ParseBuffer) :=
  match b.readU16 with
  | .error e => .error e
  | .ok (len, b) =>
    match b.slice len with
    | .error e => .error e
    | .ok (sub, b) =>
      match zerocopyListParse p sub with
      | .error e => .error e
      | .ok (raw, _) => .ok (raw, b)

/-- Same as `parseEncodeListParseU16` for a `u8` length prefix. -/
def parseEncodeListParseU8 {α : Type} (p : ParseBuffer → Except ParseError (α × ParseBuffer))
    (b : ParseBuffer) : Except ParseError (List Nat × ParseBuffer) :=
  match b.readU8 with
  | .error e => .error e
  | .ok (len, b) =>
    match b.slice len with
    | .error e => .error e
    | .ok (sub, b) =>
      match zerocopyListParse p sub with
      | .error e => .error e
      | .ok (raw, _) => .ok (raw, b)

/-- The counting loop of the `len` function generated by
`parse_encode_list!` (`parse_encode.rs` lines 238–245): repeatedly read a
length word of the list's prefix width and slice that many bytes (ignoring
slice failures), counting iterations until the length read fails.  `fuel`
bounds the recursion (each iteration consumes at least the length word). -/
def parseEncodeListLenLoopU16 : Nat → ParseBuffer → Nat → Nat
  | 0, _, acc => acc
  | fuel + 1, b, acc =>
    match b.readU16 with
    | .error _ => acc
    | .ok (len, b) =>
      match b.slice len with
      | .error _ => parseEncodeListLenLoopU16 fuel b (acc + 1)
      | .ok (_, b2) => parseEncodeListLenLoopU16 fuel b2 (acc + 1)

/-- The `len` function generated by `parse_encode_list!` with the default
`u16` length prefix, as instantiated for `PskIdentityList`
(`pre_shared_key.rs` line 44): count `u16-length || bytes` units in the raw
stored region.  Note it does not skip the `u32 obfuscated_ticket_age` that
follows each identity. -/
def parseEncodeListLenU16 (raw : List Nat) : Nat :=
  parseEncodeListLenLoopU16 (raw.length + 1) (ParseBuffer.new raw) 0

/-- `NamedGroup` (`supported_groups.rs`). -/
inductive NamedGroup where
  | secp256r1
  | secp384r1
  | secp521r1
  | x25519
  | x448
  | ffdhe2048
  | ffdhe3072
  | ffdhe4096
  | ffdhe6144
  | ffdhe8192
  | x25519MLKEM768
  | secP256r1MLKEM768
  | secP384r1MLKEM1024
deriving DecidableEq, Repr

namespace NamedGroup

/-- `NamedGroup::parse` (`supported_groups.rs` lines 31–53). -/
def parse (b : ParseBuffer) : Except ParseError (NamedGroup × ParseBuffer) :=
  match b.readU16 with
  | .error e => .error e
  | .ok (v, b) =>
    match v with
    | 0x0017 => .ok (.secp256r1, b)
    | 0x0018 => .ok (.secp384r1, b)
    | 0x0019 => .ok (.secp521r1, b)
    | 0x001D => .ok (.x25519, b)
    | 0x001E => .ok (.x448, b)
    | 0x0100 => .ok (.ffdhe2048, b)
    | 0x0101 => .ok (.ffdhe3072, b)
    | 0x0102 => .ok (.ffdhe4096, b)
    | 0x0103 => .ok (.ffdhe6144, b)
    | 0x0104 => .ok (.ffdhe8192, b)
    | 0x11EB => .ok (.secP256r1MLKEM768, b)
    | 0x11EC => .ok (.x25519MLKEM768, b)
    | 0x11ED => .ok (.secP384r1MLKEM1024, b)
    | _ => .error .invalidData

/-- `NamedGroup::as_u16` (`supported_groups.rs` lines 55–73). -/
def asU16 : NamedGroup → Nat
  | .secp256r1 => 0x0017
  | .secp384r1 => 0x0018
  | .secp521r1 => 0x0019
  | .x25519 => 0x001D
  | .x448 => 0x001E
  | .ffdhe2048 => 0x0100
  | .ffdhe3072 => 0x0101
  | .ffdhe4096 => 0x0102
  | .ffdhe6144 => 0x0103
  | .ffdhe8192 => 0x0104
  | .secP256r1MLKEM768 => 0x11EB
  | .x25519MLKEM768 => 0x11EC
  | .secP384r1MLKEM1024 => 0x11ED

/-- `NamedGroup::encode`: `push_u16(as_u16())`. -/
def encode (g : NamedGroup) : Except TlsError (List Nat) :=
  .ok (u16Bytes g.asU16)

end NamedGroup

/-- `KeyShareEntry` (`key_share.rs` lines 84–89).  `keyExchange` models the
`opaque` field: the borrowed key-exchange bytes. -/
structure KeyShareEntry where
  group : NamedGroup
  keyExchange : List Nat
deriving DecidableEq, Repr

namespace KeyShareEntry

/-- `KeyShareEntry::parse` (`key_share.rs` lines 92–102). -/
def parse (b : ParseBuffer) : Except ParseError (KeyShareEntry × ParseBuffer) :=
  match NamedGroup.parse b with
  | .error e => .error e
  | .ok (group, b) =>
    match b.readU16 with
    | .error e => .error e
    | .ok (len, b) =>
      match b.slice len with
      | .error e => .error e
      | .ok (sub, b) => .ok ({ group, keyExchange := sub.asSlice }, b)

/-- `KeyShareEntry::encode` (`key_share.rs` lines 104–109): the group's
`u16` codepoint, then the key-exchange bytes in a `u16` length scope. -/
def encode (e : KeyShareEntry) : Except TlsError (List Nat) :=
  match NamedGroup.encode e.group with
  | .error err => .error err
  | .ok gb =>
    match withU16Length e.keyExchange with
    | .error _ => .error .encodeError
    | .ok kb => .ok (gb ++ kb)

end KeyShareEntry

/-- `NameType` (`server_name.rs` lines 10–12): only `HostName = 0`. -/
inductive NameType where
  | hostName
deriving DecidableEq, Repr

/-- `NameType::parse` (`server_name.rs` lines 15–23): byte `0` is
`HostName`, anything else is `InvalidData`. -/
def NameType.parse (b : ParseBuffer) : Except ParseError (NameType × ParseBuffer) :=
  match b.readU8 with
  | .error e => .error e
  | .ok (v, b) =>
    match v with
    | 0 => .ok (.hostName, b)
    | _ => .error .invalidData

/-- `ServerName` (`server_name.rs` lines 32–35).  The Rust `name: &str` is
modelled as the byte list of the name (the source obtains it with
`core::str::from_utf8`, which cannot fail on the ASCII bytes accepted by
`parse`). -/
structure ServerName where
  nameType : NameType
  name : List Nat
deriving DecidableEq, Repr

/-- `ServerName::parse` (`server_name.rs` lines 46–63): name type, `u16`
length, that many name bytes; accepted only if all bytes are ASCII
(`< 128`).  The RFC 6066 comment in the source also says "without a
trailing dot", but the code checks only `is_ascii`. -/
def ServerName.parse (b : ParseBuffer) : Except ParseError (ServerName × ParseBuffer) :=
  match NameType.parse b with
  | .error e => .error e
  | .ok (nameType, b) =>
    match b.readU16 with
    | .error e => .error e
    | .ok (nameLen, b) =>
      match b.slice nameLen with
      | .error e => .error e
      | .ok (sub, b) =>
        if (sub.asSlice).all (fun c => c < 128) then
          .ok ({ nameType, name := sub.asSlice }, b)
        else
          .error .invalidData

/-- `ServerNameResponse` (`server_name.rs` lines 82–84): an empty extension
body. -/
structure ServerNameResponse where
deriving DecidableEq, Repr

/-- `ServerNameResponse::parse` (`server_name.rs` lines 86–94): succeeds
exactly on an empty buffer. -/
def ServerNameResponse.parse (b : ParseBuffer) :
    Except ParseError (ServerNameResponse × ParseBuffer) :=
  if b.isEmpty then .ok (⟨⟩, b) else .error .invalidData

/-- `Unimplemented` (`unimplemented.rs` lines 10–12): an opaque extension
body kept as raw bytes. -/
structure Unimplemented where
  data : List Nat
deriving DecidableEq, Repr

/-- `Unimplemented::parse` (`unimplemented.rs` lines 14–20): records
`buf.as_slice()` without consuming the buffer. -/
def Unimplemented.parse (b : ParseBuffer) : Except ParseError (Unimplemented × ParseBuffer) :=
  .ok ({ data := b.asSlice }, b)

/-- Modelled from the spec: `MaxFragmentLength` (`max_fragment_length.rs` is
not among the provided sources).  RFC 6066 §4, referenced by spec §4.3:
codes 1–4 select 2^9..2^12; anything else is invalid. -/
inductive MaxFragmentLength where
  | bits512
  | bits1024
  | bits2048
  | bits4096
deriving DecidableEq, Repr

/-- Modelled from the spec: `MaxFragmentLength::parse` per RFC 6066 §4. -/
def MaxFragmentLength.parse (b : ParseBuffer) :
    Except ParseError (MaxFragmentLength × ParseBuffer) :=
  match b.readU8 with
  | .error e => .error e
  | .ok (v, b) =>
    match v with
    | 1 => .ok (.bits512, b)
    | 2 => .ok (.bits1024, b)
    | 3 => .ok (.bits2048, b)
    | 4 => .ok (.bits4096, b)
    | _ => .error .invalidData

/-- `ProtocolVersion` (`supported_versions.rs` lines 8–21): a wrapped
`u16`. -/
def ProtocolVersion.parse (b : ParseBuffer) : Except ParseError (Nat × ParseBuffer) :=
  b.readU16

/-- `ProtocolVersion::encode`: `push_u16`. -/
def ProtocolVersion.encode (v : Nat) : Except TlsError (List Nat) :=
  .ok (u16Bytes v)

/-- `SupportedVersionsClientHello` (`supported_versions.rs` line 25):
`parse_encode_list!` with a `u8` length prefix over `ProtocolVersion`; the
Remote form stores the raw validated region. -/
def SupportedVersionsClientHello.parse (b : ParseBuffer) :
    Except ParseError (List Nat × ParseBuffer) :=
  parseEncodeListParseU8 ProtocolVersion.parse b

/-- The `Encode` impl generated by `parse_encode_list!` with a `u8` length
prefix for `SupportedVersionsClientHello`: each version of the local
iterator encoded inside a `u8` length scope. -/
def SupportedVersionsClientHello.encode (versions : List Nat) : Except TlsError (List Nat) :=
  withU8Length (versions.flatMap (fun v => u16Bytes v))

/-- `SupportedVersionsServerHello` (`supported_versions.rs` lines 29–38):
a single selected `ProtocolVersion`. -/
def SupportedVersionsServerHello.parse (b : ParseBuffer) :
    Except ParseError (Nat × ParseBuffer) :=
  ProtocolVersion.parse b

/-- `SupportedGroups` (`supported_groups.rs` line 83): `parse_encode_list!`
with the default `u16` length prefix over `NamedGroup`. -/
def SupportedGroups.parse (b : ParseBuffer) : Except ParseError (List Nat × ParseBuffer) :=
  parseEncodeListParseU16 NamedGroup.parse b

/-- `PskIdentity` (`pre_shared_key.rs` lines 11–14). -/
structure PskIdentity where
  identity : List Nat
  obfuscatedTicketAge : Nat
deriving DecidableEq, Repr

/-- `PskIdentity::parse` (`pre_shared_key.rs` lines 26–34): `u16` length,
identity bytes, then the `u32` obfuscated ticket age. -/
def PskIdentity.parse (b : ParseBuffer) : Except ParseError (PskIdentity × ParseBuffer) :=
  match b.readU16 with
  | .error e => .error e
  | .ok (len, b) =>
    match b.slice len with
    | .error e => .error e
    | .ok (sub, b) =>
      match b.readU32 with
      | .error e => .error e
      | .ok (age, b) => .ok ({ identity := sub.asSlice, obfuscatedTicketAge := age }, b)

/-- `PskIdentityList` (`pre_shared_key.rs` line 44): `parse_encode_list!`
with the default `u16` length prefix over `PskIdentity`. -/
def PskIdentityList.parse (b : ParseBuffer) : Except ParseError (List Nat × ParseBuffer) :=
  parseEncodeListParseU16 PskIdentity.parse b

/-- `PskIdentityList::len`: the generated counting function (see
`parseEncodeListLenU16`). -/
def PskIdentityList.len (raw : List Nat) : Nat :=
  parseEncodeListLenU16 raw

/-- `SliceU8::parse` (`parse_encode.rs` lines 42–47): a `u8` length
followed by that many bytes. -/
def SliceU8.parse (b : ParseBuffer) : Except ParseError (List Nat × ParseBuffer) :=
  match b.readU8 with
  | .error e => .error e
  | .ok (len, b) =>
    match b.slice len with
    | .error e => .error e
    | .ok (sub, b) => .ok (sub.asSlice, b)

/-- `Binders::parse` (`pre_shared_key.rs` lines 58–64): `u16` length, then
a `ZerocopyList` of `SliceU8` binder entries over the sliced region. -/
def Binders.parse (b : ParseBuffer) : Except ParseError (List Nat × ParseBuffer) :=
  match b.readU16 with
  | .error e => .error e
  | .ok (len, b) =>
    match b.slice len with
    | .error e => .error e
    | .ok (sub, b) =>
      match zerocopyListParse SliceU8.parse sub with
      | .error e => .error e
      | .ok (raw, _) => .ok (raw, b)

/-- The counting loop behind `Binders::len` (`pre_shared_key.rs` lines
70–72): `self.0.iter().count()` re-parses `SliceU8` items until the first
failure.  `fuel` bounds the recursion (each item consumes at least its
length byte). -/
def bindersLenLoop : Nat → ParseBuffer → Nat → Nat
  | 0, _, acc => acc
  | fuel + 1, b, acc =>
    match SliceU8.parse b with
    | .error _ => acc
    | .ok (_, b2) => bindersLenLoop fuel b2 (acc + 1)

/-- `Binders::len`: the number of `SliceU8` items parsed from the raw
binders region. -/
def Binders.len (raw : List Nat) : Nat :=
  bindersLenLoop (raw.length + 1) (ParseBuffer.new raw) 0

/-- A parsed `PreSharedKeyClientHello` (Remote location,
`pre_shared_key.rs` lines 95–105): the raw identity-list region and the raw
binders region. -/
structure PreSharedKeyClientHello where
  identities : List Nat
  binders : List Nat
deriving DecidableEq, Repr

/-- `PreSharedKeyClientHello::parse` (`pre_shared_key.rs` lines 107–123):
slice the `u16`-prefixed identity region, slice the `u16`-prefixed binder
region, parse both lists, then require `binders.len() == identities.len()`
(the latter computed by the generated `PskIdentityList::len`). -/
def PreSharedKeyClientHello.parse (b : ParseBuffer) :
    Except ParseError (PreSharedKeyClientHello × ParseBuffer) :=
  match b.readU16 with
  | .error e => .error e
  | .ok (len, b) =>
    match b.slice len with
    | .error e => .error e
    | .ok (identBuf, b) =>
      match b.readU16 with
      | .error e => .error e
      | .ok (len2, b) =>
        match b.slice len2 with
        | .error e => .error e
        | .ok (bindBuf, b) =>
          match PskIdentityList.parse identBuf with
          | .error e => .error e
          | .ok (identities, _) =>
            match Binders.parse bindBuf with
            | .error e => .error e
            | .ok (binders, _) =>
              if Binders.len binders = PskIdentityList.len identities then
                .ok ({ identities, binders }, b)
              else
                .error .invalidData

/-- `PreSharedKeyServerHello` (`pre_shared_key.rs` lines 138–148): a single
`u16` selected identity. -/
def PreSharedKeyServerHello.parse (b : ParseBuffer) : Except ParseError (Nat × ParseBuffer) :=
  b.readU16

/-- `EncryptedExtensionsExtension` (`messages.rs` lines 56–68): the tagged
union of extensions valid in EncryptedExtensions. -/
inductive EncryptedExtensionsExtension where
  | serverName (r : ServerNameResponse)
  | maxFragmentLength (m : MaxFragmentLength)
  | supportedGroups (raw : List Nat)
  | useSrtp (u : Unimplemented)
  | heartbeat (u : Unimplemented)
  | applicationLayerProtocolNegotiation (u : Unimplemented)
  | clientCertificateType (u : Unimplemented)
  | serverCertificateType (u : Unimplemented)
  | earlyData (u : Unimplemented)
deriving DecidableEq, Repr

/-- The dispatch table generated by `extension_group!` for
`EncryptedExtensionsExtension`: one arm per variant in `messages.rs` lines
56–68; every other extension type falls through to the `IllegalParameter`
arm (`none`). -/
def eeDispatch : ExtensionDispatch EncryptedExtensionsExtension := fun t =>
  match t with
  | .serverName =>
    some (fun b => (ServerNameResponse.parse b).map (fun x => .serverName x.1))
  | .maxFragmentLength =>
    some (fun b => (MaxFragmentLength.parse b).map (fun x => .maxFragmentLength x.1))
  | .supportedGroups =>
    some (fun b => (SupportedGroups.parse b).map (fun x => .supportedGroups x.1))
  | .useSrtp =>
    some (fun b => (Unimplemented.parse b).map (fun x => .useSrtp x.1))
  | .heartbeat =>
    some (fun b => (Unimplemented.parse b).map (fun x => .heartbeat x.1))
  | .applicationLayerProtocolNegotiation =>
    some (fun b => (Unimplemented.parse b).map (fun x => .applicationLayerProtocolNegotiation x.1))
  | .clientCertificateType =>
    some (fun b => (Unimplemented.parse b).map (fun x => .clientCertificateType x.1))
  | .serverCertificateType =>
    some (fun b => (Unimplemented.parse b).map (fun x => .serverCertificateType x.1))
  | .earlyData =>
    some (fun b => (Unimplemented.parse b).map (fun x => .earlyData x.1))
  | _ => none

/-- `EncryptedExtensionsExtension::parse`: the `extension_group!` generated
parser instantiated with this message's dispatch table. -/
def EncryptedExtensionsExtension.parse (b : ParseBuffer) :
    Except TlsError EncryptedExtensionsExtension × ParseBuffer :=
  extensionGroupParse eeDispatch b

/-- `EncryptedExtensionsExtension::parse_vector::<N>`. -/
def EncryptedExtensionsExtension.parseVector (cap : Nat) (b : ParseBuffer) :
    Except TlsError (List EncryptedExtensionsExtension) × ParseBuffer :=
  extensionGroupParseVector eeDispatch cap b

/-- `ServerHelloExtension` (`messages.rs` lines 46–53). -/
inductive ServerHelloExtension where
  | keyShare (e : KeyShareEntry)
  | preSharedKey (selectedIdentity : Nat)
  | cookie (u : Unimplemented)
  | supportedVersions (selectedVersion : Nat)
deriving DecidableEq, Repr

/-- The dispatch table generated by `extension_group!` for
`ServerHelloExtension` (`messages.rs` lines 46–53). -/
def shDispatch : ExtensionDispatch ServerHelloExtension := fun t =>
  match t with
  | .keyShare =>
    some (fun b => (KeyShareEntry.parse b).map (fun x => .keyShare x.1))
  | .preSharedKey =>
    some (fun b => (PreSharedKeyServerHello.parse b).map (fun x => .preSharedKey x.1))
  | .cookie =>
    some (fun b => (Unimplemented.parse b).map (fun x => .cookie x.1))
  | .supportedVersions =>
    some (fun b => (SupportedVersionsServerHello.parse b).map (fun x => .supportedVersions x.1))
  | _ => none

/-- `ServerHelloExtension::parse_vector::<4>` as used by
`RemoteServerHello::parse` (`remote_hello.rs` line 45; the vector capacity
4 is the `heapless::Vec<_, 4>` of `remote_hello.rs` line 15). -/
def ServerHelloExtension.parseVector (b : ParseBuffer) :
    Except TlsError (List ServerHelloExtension) × ParseBuffer :=
  extensionGroupParseVector shDispatch 4 b

/-- Modelled from the spec: `CipherSuite::parse` (`cipher_suites.rs` is not
among the provided sources).  Spec §6: the fixed suite set contains at
minimum `TLS_AES_128_GCM_SHA256`; the RFC 8446 TLS 1.3 suites
0x1301–0x1303 are accepted, anything else is `InvalidData`. -/
def CipherSuite.parse (b : ParseBuffer) : Except ParseError (Nat × ParseBuffer) :=
  match b.readU16 with
  | .error e => .error e
  | .ok (v, b) =>
    match v with
    | 0x1301 => .ok (v, b)
    | 0x1302 => .ok (v, b)
    | 0x1303 => .ok (v, b)
    | _ => .error .invalidData

/-- `parse_session_id` (`remote_hello.rs` lines 22–34): legacy version,
32-byte random, `u8` session-id length, session id.  `ParseError`
conversions via `?` are modelled as `DecodeError` (spec §7: parse errors
map to decode errors) except where the source maps them explicitly. -/
def parseSessionId (b : ParseBuffer) : Except TlsError (ParseBuffer × ParseBuffer) :=
  match b.readU16 with
  | .error _ => .error .invalidHandshake
  | .ok (_, b) =>
    match b.fill 32 with
    | .error _ => .error .decodeError
    | .ok (_, b) =>
      match b.readU8 with
      | .error _ => .error .invalidSessionIdLength
      | .ok (sessionIdLength, b) =>
        match b.slice sessionIdLength with
        | .error _ => .error .invalidSessionIdLength
        | .ok (sid, b) => .ok (sid, b)

/-- `RemoteServerHello` (`remote_hello.rs` lines 14–16): the retained
extensions vector. -/
structure RemoteServerHello where
  extensions : List ServerHelloExtension
deriving DecidableEq, Repr

/-- `RemoteServerHello::parse` (`remote_hello.rs` lines 37–54): session-id
prefix, cipher suite, then one byte for the compression method — read and
discarded without checking its value ("skip compression method, it's 0.")
— then the extensions vector. -/
def RemoteServerHello.parse (b : ParseBuffer) :
    Except TlsError (RemoteServerHello × ParseBuffer) :=
  match parseSessionId b with
  | .error e => .error e
  | .ok (_, b) =>
    match CipherSuite.parse b with
    | .error _ => .error .invalidCipherSuite
    | .ok (_, b) =>
      match b.readU8 with
      | .error _ => .error .decodeError
      | .ok (_, b) =>
        match ServerHelloExtension.parseVector b with
        | (.error e, _) => .error e
        | (.ok extensions, b) => .ok ({ extensions }, b)

/-- The transcript hasher state: modelled as the exact sequence of bytes fed
to it (`Digest::update` appends).  The claims under verification are about
*which* bytes are hashed, so the hash function itself is modelled as the
injection of the fed byte sequence into a digest value. -/
def Transcript := List Nat

/-- A finalized digest value: determined by the bytes the hasher was fed. -/
structure HashDigest where
  fed : List Nat
deriving DecidableEq, Repr

/-- `digest.clone().finalize()`: the digest of everything fed so far. -/
def Transcript.finalize (t : List Nat) : HashDigest := ⟨t⟩

/-- Modelled from the spec: `Finished` (`finished.rs` is not among the
provided sources); the struct shape — `verify_data` plus an optional
transcript-hash slot filled by `RemoteHandshake::read` — is visible from
`handshake/mod.rs` line 194 `finished.hash.replace(digest.clone().finalize())`
and spec §4.4. -/
structure Finished where
  verifyData : List Nat
  hash : Option HashDigest
deriving DecidableEq, Repr

/-- Modelled from the spec: `Finished::parse(buf, content_len)`
(`finished.rs` missing): reads the `content_len` verify-data bytes (spec
§4.4: the body is `verify_data` whose length the caller knows); the `hash`
slot starts empty. -/
def Finished.parse (b : ParseBuffer) (contentLen : Nat) :
    Except TlsError (Finished × ParseBuffer) :=
  match b.fill contentLen with
  | .error _ => .error .decodeError
  | .ok (verifyData, b) => .ok ({ verifyData, hash := none }, b)

/-- `HandshakeType` (`handshake/mod.rs` lines 34–46). -/
inductive HandshakeType where
  | clientHello
  | serverHello
  | newSessionTicket
  | endOfEarlyData
  | encryptedExtensions
  | certificate
  | certificateRequest
  | certificateVerify
  | finished
  | keyUpdate
  | messageHash
deriving DecidableEq, Repr

/-- `HandshakeType::parse` (`handshake/mod.rs` lines 49–64). -/
def HandshakeType.parse (b : ParseBuffer) : Except ParseError (HandshakeType × ParseBuffer) :=
  match b.readU8 with
  | .error e => .error e
  | .ok (v, b) =>
    match v with
    | 1 => .ok (.clientHello, b)
    | 2 => .ok (.serverHello, b)
    | 4 => .ok (.newSessionTicket, b)
    | 5 => .ok (.endOfEarlyData, b)
    | 8 => .ok (.encryptedExtensions, b)
    | 11 => .ok (.certificate, b)
    | 13 => .ok (.certificateRequest, b)
    | 15 => .ok (.certificateVerify, b)
    | 20 => .ok (.finished, b)
    | 24 => .ok (.keyUpdate, b)
    | 254 => .ok (.messageHash, b)
    | _ => .error .invalidData

/-- `NewSessionTicketExtension` (`messages.rs` lines 92–96): only
`EarlyData`. -/
inductive NewSessionTicketExtension where
  | earlyData (u : Unimplemented)
deriving DecidableEq, Repr

/-- Dispatch table for `NewSessionTicketExtension`. -/
def nstDispatch : ExtensionDispatch NewSessionTicketExtension := fun t =>
  match t with
  | .earlyData => some (fun b => (Unimplemented.parse b).map (fun x => .earlyData x.1))
  | _ => none

/-- Modelled from the spec: `NewSessionTicket::parse`
(`new_session_ticket.rs` missing).  Spec §6 mandates the exact RFC 8446
wire format; §4.6.1 of the RFC: `u32 ticket_lifetime`, `u32 ticket_age_add`,
`opaque ticket_nonce<0..255>`, `opaque ticket<1..2^16-1>`, then the
extension vector (the vector capacity 4 is a model choice; the spec does not
record the `heapless` capacity of this message). -/
structure NewSessionTicket where
  ticketLifetime : Nat
  ticketAgeAdd : Nat
  ticketNonce : List Nat
  ticket : List Nat
  extensions : List NewSessionTicketExtension
deriving DecidableEq, Repr

/-- Modelled from the spec: the parsing function for `NewSessionTicket`
described on the structure above. -/
def NewSessionTicket.parse (b : ParseBuffer) :
    Except TlsError (NewSessionTicket × ParseBuffer) :=
  match b.readU32 with
  | .error _ => .error .decodeError
  | .ok (ticketLifetime, b) =>
    match b.readU32 with
    | .error _ => .error .decodeError
    | .ok (ticketAgeAdd, b) =>
      match SliceU8.parse b with
      | .error _ => .error .decodeError
      | .ok (ticketNonce, b) =>
        match b.readU16 with
        | .error _ => .error .decodeError
        | .ok (ticketLen, b) =>
          match b.slice ticketLen with
          | .error _ => .error .decodeError
          | .ok (ticketSub, b) =>
            match extensionGroupParseVector nstDispatch 4 b with
            | (.error e, _) => .error e
            | (.ok extensions, b) =>
              .ok ({ ticketLifetime, ticketAgeAdd, ticketNonce,
                     ticket := ticketSub.asSlice, extensions }, b)

/-- Modelled from the spec: `CertificateRef::parse` (`certificate.rs`
missing).  RFC 8446 §4.4.2 via spec §6: `opaque certificate_request_context
<0..255>`, then a `u24`-prefixed list of entries, each `u24`-prefixed
certificate data followed by a `u16`-prefixed (skipped) extension region. -/
structure CertificateRef where
  requestContext : List Nat
  entries : List (List Nat)
deriving DecidableEq, Repr

/-- Modelled from the spec: the certificate-entry drain loop of
`CertificateRef::parse` (fuel-bounded; each entry consumes at least its
length words). -/
def certificateEntriesLoop : Nat → ParseBuffer → List (List Nat) →
    Except TlsError (List (List Nat)) :=
  fun fuel b acc =>
    match fuel with
    | 0 => .error .decodeError
    | fuel + 1 =>
      if b.isEmpty then .ok acc
      else
        match b.readU24 with
        | .error _ => .error .decodeError
        | .ok (certLen, b) =>
          match b.slice certLen with
          | .error _ => .error .decodeError
          | .ok (certSub, b) =>
            match b.readU16 with
            | .error _ => .error .decodeError
            | .ok (extLen, b) =>
              match b.slice extLen with
              | .error _ => .error .decodeError
              | .ok (_, b) => certificateEntriesLoop fuel b (acc ++ [certSub.asSlice])

/-- Modelled from the spec: the parsing function for `CertificateRef`
described on the structure above. -/
def CertificateRef.parse (b : ParseBuffer) :
    Except TlsError (CertificateRef × ParseBuffer) :=
  match SliceU8.parse b with
  | .error _ => .error .decodeError
  | .ok (requestContext, b) =>
    match b.readU24 with
    | .error _ => .error .decodeError
    | .ok (listLen, b) =>
      match b.slice listLen with
      | .error _ => .error .decodeError
      | .ok (sub, b) =>
        match certificateEntriesLoop (sub.remaining + 1) sub [] with
        | .error e => .error e
        | .ok entries => .ok ({ requestContext, entries }, b)

/-- Modelled from the spec: `SignatureScheme::parse`
(`signature_algorithms.rs` missing): a `u16` codepoint from the RFC 8446
§4.2.3 list, anything else `InvalidData`. -/
def SignatureScheme.parse (b : ParseBuffer) : Except ParseError (Nat × ParseBuffer) :=
  match b.readU16 with
  | .error e => .error e
  | .ok (v, b) =>
    if v ∈ [0x0201, 0x0203, 0x0401, 0x0403, 0x0501, 0x0503, 0x0601, 0x0603,
            0x0804, 0x0805, 0x0806, 0x0807, 0x0808, 0x0809, 0x080A, 0x080B] then
      .ok (v, b)
    else
      .error .invalidData

/-- Modelled from the spec: `SignatureAlgorithms` (`signature_algorithms.rs`
missing) and `SignatureAlgorithmsCert` (`signature_algorithms_cert.rs` line
5): `parse_encode_list!` with the default `u16` length prefix over
`SignatureScheme`. -/
def SignatureAlgorithms.parse (b : ParseBuffer) : Except ParseError (List Nat × ParseBuffer) :=
  parseEncodeListParseU16 SignatureScheme.parse b

/-- `CertificateRequestExtension` (`messages.rs` lines 71–80). -/
inductive CertificateRequestExtension where
  | statusRequest (u : Unimplemented)
  | signatureAlgorithms (raw : List Nat)
  | signedCertificateTimestamp (u : Unimplemented)
  | certificateAuthorities (u : Unimplemented)
  | oidFilters (u : Unimplemented)
  | signatureAlgorithmsCert (u : Unimplemented)
  | compressCertificate (u : Unimplemented)
deriving DecidableEq, Repr

/-- Dispatch table for `CertificateRequestExtension`. -/
def crDispatch : ExtensionDispatch CertificateRequestExtension := fun t =>
  match t with
  | .statusRequest => some (fun b => (Unimplemented.parse b).map (fun x => .statusRequest x.1))
  | .signatureAlgorithms =>
    some (fun b => (SignatureAlgorithms.parse b).map (fun x => .signatureAlgorithms x.1))
  | .signedCertificateTimestamp =>
    some (fun b => (Unimplemented.parse b).map (fun x => .signedCertificateTimestamp x.1))
  | .certificateAuthorities =>
    some (fun b => (Unimplemented.parse b).map (fun x => .certificateAuthorities x.1))
  | .oidFilters => some (fun b => (Unimplemented.parse b).map (fun x => .oidFilters x.1))
  | .signatureAlgorithmsCert =>
    some (fun b => (Unimplemented.parse b).map (fun x => .signatureAlgorithmsCert x.1))
  | .compressCertificate =>
    some (fun b => (Unimplemented.parse b).map (fun x => .compressCertificate x.1))
  | _ => none

/-- Modelled from the spec: `CertificateRequestRef::parse`
(`certificate_request.rs` missing).  RFC 8446 §4.3.2 via spec §6:
`opaque certificate_request_context<0..255>`, then the extension vector
(capacity 4 is a model choice). -/
structure CertificateRequestRef where
  requestContext : List Nat
  extensions : List CertificateRequestExtension
deriving DecidableEq, Repr

/-- Modelled from the spec: the parsing function for `CertificateRequestRef`
described on the structure above. -/
def CertificateRequestRef.parse (b : ParseBuffer) :
    Except TlsError (CertificateRequestRef × ParseBuffer) :=
  match SliceU8.parse b with
  | .error _ => .error .decodeError
  | .ok (requestContext, b) =>
    match extensionGroupParseVector crDispatch 4 b with
    | (.error e, _) => .error e
    | (.ok extensions, b) => .ok ({ requestContext, extensions }, b)

/-- Modelled from the spec: `CertificateVerifyRef::parse`
(`certificate_verify.rs` missing).  RFC 8446 §4.4.3 via spec §6: a `u16`
signature scheme and a `u16`-prefixed signature. -/
structure CertificateVerifyRef where
  scheme : Nat
  signature : List Nat
deriving DecidableEq, Repr

/-- Modelled from the spec: the parsing function for `CertificateVerifyRef`
described on the structure above. -/
def CertificateVerifyRef.parse (b : ParseBuffer) :
    Except TlsError (CertificateVerifyRef × ParseBuffer) :=
  match SignatureScheme.parse b with
  | .error _ => .error .decodeError
  | .ok (scheme, b) =>
    match b.readU16 with
    | .error _ => .error .decodeError
    | .ok (sigLen, b) =>
      match b.slice sigLen with
      | .error _ => .error .decodeError
      | .ok (sigSub, b) => .ok ({ scheme, signature := sigSub.asSlice }, b)

/-- Modelled from the spec: `EncryptedExtensions::parse`
(`encrypted_extensions.rs` missing): the extension vector of
`EncryptedExtensionsExtension` (spec §4.3; capacity 8 is a model choice). -/
def EncryptedExtensions.parse (b : ParseBuffer) :
    Except TlsError (List EncryptedExtensionsExtension × ParseBuffer) :=
  match EncryptedExtensionsExtension.parseVector 8 b with
  | (.error e, _) => .error e
  | (.ok exts, b) => .ok (exts, b)

/-- `RemoteHandshake` (`handshake/mod.rs` lines 130–138). -/
inductive RemoteHandshakeMsg where
  | serverHello (sh : RemoteServerHello)
  | encryptedExtensions (exts : List EncryptedExtensionsExtension)
  | newSessionTicket (t : NewSessionTicket)
  | certificate (c : CertificateRef)
  | certificateRequest (cr : CertificateRequestRef)
  | certificateVerify (cv : CertificateVerifyRef)
  | finished (f : Finished)
deriving DecidableEq, Repr

/-- `RemoteHandshake::parse` (`handshake/mod.rs` lines 202–242): handshake
type, `u24` content length, then the per-type body parser; the
unimplemented types (`ClientHello`, `EndOfEarlyData`, `KeyUpdate`,
`MessageHash`) return `TlsError::Unimplemented`. -/
def RemoteHandshake.parse (b : ParseBuffer) :
    Except TlsError (RemoteHandshakeMsg × ParseBuffer) :=
  match HandshakeType.parse b with
  | .error _ => .error .invalidHandshake
  | .ok (handshakeType, b) =>
    match b.readU24 with
    | .error _ => .error .invalidHandshake
    | .ok (contentLen, b) =>
      match handshakeType with
      | .serverHello =>
        match RemoteServerHello.parse b with
        | .error e => .error e
        | .ok (sh, b) => .ok (.serverHello sh, b)
      | .newSessionTicket =>
        match NewSessionTicket.parse b with
        | .error e => .error e
        | .ok (t, b) => .ok (.newSessionTicket t, b)
      | .encryptedExtensions =>
        match EncryptedExtensions.parse b with
        | .error e => .error e
        | .ok (exts, b) => .ok (.encryptedExtensions exts, b)
      | .certificate =>
        match CertificateRef.parse b with
        | .error e => .error e
        | .ok (c, b) => .ok (.certificate c, b)
      | .certificateRequest =>
        match CertificateRequestRef.parse b with
        | .error e => .error e
        | .ok (cr, b) => .ok (.certificateRequest cr, b)
      | .certificateVerify =>
        match CertificateVerifyRef.parse b with
        | .error e => .error e
        | .ok (cv, b) => .ok (.certificateVerify cv, b)
      | .finished =>
        match Finished.parse b contentLen with
        | .error e => .error e
        | .ok (f, b) => .ok (.finished f, b)
      | _ => .error .unimplemented

/-- `RemoteHandshake::read` (`handshake/mod.rs` lines 185–200): note the
message start offset, parse, note the end offset; for a `Finished` message
store the digest of the transcript *before* this message on the message;
then feed the raw wire bytes `[start, end)` of the message to the
transcript — exactly once, after parsing. -/
def RemoteHandshake.read (buf : ParseBuffer) (digest : List Nat) :
    Except TlsError (RemoteHandshakeMsg × ParseBuffer × List Nat) :=
  let handshakeStart := buf.offset
  match RemoteHandshake.parse buf with
  | .error e => .error e
  | .ok (handshake, buf) =>
    let handshakeEnd := buf.offset
    let handshake :=
      match handshake with
      | .finished f => .finished { f with hash := some (Transcript.finalize digest) }
      | h => h
    let digest := digest ++ ((buf.asSlice.take handshakeEnd).drop handshakeStart)
    .ok (handshake, buf, digest)

/-- Modelled from the spec: `ContentType` (`content_types.rs` missing); the
five valid record content types of spec §4.6. -/
inductive ContentType where
  | invalid
  | changeCipherSpec
  | alert
  | handshake
  | applicationData
deriving DecidableEq, Repr

/-- Modelled from the spec: the RFC 8446 wire codepoint of each content
type. -/
def ContentType.code : ContentType → Nat
  | .invalid => 0
  | .changeCipherSpec => 20
  | .alert => 21
  | .handshake => 22
  | .applicationData => 23

/-- `ClientRecordHeader` (`record.rs` lines 30–34). -/
inductive ClientRecordHeader where
  | handshake (encrypted : Bool)
  | alert (encrypted : Bool)
  | applicationData
deriving DecidableEq, Repr

namespace ClientRecordHeader

/-- `ClientRecordHeader::is_encrypted` (`record.rs` lines 37–44). -/
def isEncrypted : ClientRecordHeader → Bool
  | .handshake e => e
  | .alert e => e
  | .applicationData => true

/-- `ClientRecordHeader::header_content_type` (`record.rs` lines 46–54). -/
def headerContentType : ClientRecordHeader → ContentType
  | .handshake false => .handshake
  | .alert false => .changeCipherSpec
  | .handshake true => .applicationData
  | .alert true => .applicationData
  | .applicationData => .applicationData

/-- `ClientRecordHeader::trailer_content_type` (`record.rs` lines 56–62). -/
def trailerContentType : ClientRecordHeader → ContentType
  | .handshake _ => .handshake
  | .alert _ => .alert
  | .applicationData => .applicationData

/-- `ClientRecordHeader::version` (`record.rs` lines 64–69). -/
def version : ClientRecordHeader → List Nat
  | .handshake true => [0x03, 0x03]
  | .alert true => [0x03, 0x03]
  | .applicationData => [0x03, 0x03]
  | .handshake false => [0x03, 0x01]
  | .alert false => [0x03, 0x01]

/-- `ClientRecordHeader::encode` (`record.rs` lines 71–78): the content
type byte followed by the version bytes. -/
def encode (h : ClientRecordHeader) : List Nat :=
  h.headerContentType.code :: h.version

end ClientRecordHeader

/-- A minimal well-formed ServerHello body with compression-method byte
`c`: legacy version `0x0303`, a 32-byte random, empty session id, cipher
suite `TLS_AES_128_GCM_SHA256`, compression byte `c`, empty extensions. -/
def serverHelloWire (c : Nat) : List Nat :=
  [0x03, 0x03] ++ List.replicate 32 0 ++ [0x00] ++ [0x13, 0x01] ++ [c] ++ [0x00, 0x00]

namespace ParseBuffer

theorem readU8_char (b : ParseBuffer) :
    b.readU8 = match b.bytes.drop b.pos with
      | [] => .error .insufficientSpace
      | v :: _ => .ok (v, ⟨b.bytes, b.pos + 1⟩) := rfl

theorem drop_pos_add (b : ParseBuffer) (k : Nat) :
    b.bytes.drop (b.pos + k) = (b.bytes.drop b.pos).drop k := by
  rw [List.drop_drop k b.pos b.bytes]

theorem readU16_char (b : ParseBuffer) :
    b.readU16 = match b.bytes.drop b.pos with
      | hi :: lo :: _ => .ok (256 * hi + lo, ⟨b.bytes, b.pos + 2⟩)
      | _ => .error .insufficientSpace := by
  have h1 : b.bytes.drop (b.pos + 1) = (b.bytes.drop b.pos).drop 1 := drop_pos_add b 1
  cases h : b.bytes.drop b.pos with
  | nil => simp [readU16, readU8, h]
  | cons hi t =>
    cases t with
    | nil => simp [readU16, readU8, h, h1]
    | cons lo t2 => simp [readU16, readU8, h, h1, Nat.add_assoc]

theorem readU24_char (b : ParseBuffer) :
    b.readU24 = match b.bytes.drop b.pos with
      | hi :: mid :: lo :: _ =>
        .ok (65536 * hi + (256 * mid + lo), ⟨b.bytes, b.pos + 3⟩)
      | _ => .error .insufficientSpace := by
  have h1 : b.bytes.drop (b.pos + 1) = (b.bytes.drop b.pos).drop 1 := drop_pos_add b 1
  cases h : b.bytes.drop b.pos with
  | nil => simp [readU24, readU8, h]
  | cons hi t =>
    have h16 := readU16_char ⟨b.bytes, b.pos + 1⟩
    cases t with
    | nil => simp [readU24, readU8, h, h16, h1]
    | cons mid t2 =>
      cases t2 with
      | nil => simp [readU24, readU8, h, h16, h1]
      | cons lo t3 => simp [readU24, readU8, h, h16, h1, Nat.add_assoc]

theorem slice_char (b : ParseBuffer) (n : Nat) (hwf : b.pos ≤ b.bytes.length) :
    b.slice n = if n ≤ (b.bytes.drop b.pos).length
      then .ok (⟨(b.bytes.drop b.pos).take n, 0⟩, ⟨b.bytes, b.pos + n⟩)
      else .error .insufficientSpace := by
  unfold slice
  rw [List.length_drop]
  by_cases hc : b.pos + n ≤ b.bytes.length
  · rw [if_pos hc, if_pos (by omega)]
  · rw [if_neg hc, if_neg (by omega)]

theorem fill_char (b : ParseBuffer) (n : Nat) (hwf : b.pos ≤ b.bytes.length) :
    b.fill n = if n ≤ (b.bytes.drop b.pos).length
      then .ok ((b.bytes.drop b.pos).take n, ⟨b.bytes, b.pos + n⟩)
      else .error .insufficientSpace := by
  unfold fill
  rw [List.length_drop]
  by_cases hc : b.pos + n ≤ b.bytes.length
  · rw [if_pos hc, if_pos (by omega)]
  · rw [if_neg hc, if_neg (by omega)]

end ParseBuffer

theorem ExtensionType.parseCaptured_char (b : ParseBuffer) :
    ExtensionType.parseCaptured b = match b.bytes.drop b.pos with
      | t1 :: t0 :: _ =>
        ((match ExtensionType.ofCode (256 * t1 + t0) with
          | some t => .ok t
          | none => .error .invalidData), ⟨b.bytes, b.pos + 2⟩)
      | _ => (.error .insufficientSpace, b) := by
  unfold parseCaptured
  rw [ParseBuffer.readU16_char]
  cases h : b.bytes.drop b.pos with
  | nil => simp
  | cons t1 t =>
    cases t with
    | nil => simp
    | cons t0 t2 =>
      cases hc : ExtensionType.ofCode (256 * t1 + t0) <;> simp [hc]

theorem extensionGroupParse_main {α : Type} (d : ExtensionDispatch α) (b : ParseBuffer)
    (t1 t0 l1 l0 : Nat) (tl : List Nat)
    (h : b.bytes.drop b.pos = t1 :: t0 :: l1 :: l0 :: tl)
    (hlen : 256 * l1 + l0 ≤ tl.length) :
    extensionGroupParse d b =
      (extensionGroupOutcome d (ExtensionType.ofCode (256 * t1 + t0))
        (tl.take (256 * l1 + l0)),
       ⟨b.bytes, b.pos + 4 + (256 * l1 + l0)⟩) := by
  have h2 : b.bytes.drop (b.pos + 2) = l1 :: l0 :: tl := by
    rw [ParseBuffer.drop_pos_add, h]; simp
  have h4 : b.bytes.drop (b.pos + 4) = tl := by
    rw [ParseBuffer.drop_pos_add, h]; simp
  have hlength : b.bytes.length - b.pos = 4 + tl.length := by
    have hh := congrArg List.length h
    rw [List.length_drop] at hh
    simp at hh
    omega
  have hwf4 : b.pos + 4 ≤ b.bytes.length := by omega
  have hslice := ParseBuffer.slice_char ⟨b.bytes, b.pos + 4⟩ (256 * l1 + l0) hwf4
  simp only at hslice
  rw [h4, if_pos hlen] at hslice
  unfold extensionGroupParse
  rw [ExtensionType.parseCaptured_char]
  simp only [h]
  rw [ParseBuffer.readU16_char]
  simp only [h2, show b.pos + 2 + 2 = b.pos + 4 from by omega, hslice]
  cases hc : ExtensionType.ofCode (256 * t1 + t0) with
  | none => simp [extensionGroupOutcome]
  | some t =>
    cases hd : d t with
    | none => simp [extensionGroupOutcome, hd]
    | some p =>
      cases hp : p ⟨tl.take (256 * l1 + l0), 0⟩ <;>
        simp [extensionGroupOutcome, hd, hp]

theorem extensionGroupParse_overflow {α : Type} (d : ExtensionDispatch α) (b : ParseBuffer)
    (t1 t0 l1 l0 : Nat) (tl : List Nat)
    (h : b.bytes.drop b.pos = t1 :: t0 :: l1 :: l0 :: tl)
    (hlen : tl.length < 256 * l1 + l0) :
    (extensionGroupParse d b).1 = .error .decodeError := by
  have h2 : b.bytes.drop (b.pos + 2) = l1 :: l0 :: tl := by
    rw [ParseBuffer.drop_pos_add, h]; simp
  have h4 : b.bytes.drop (b.pos + 4) = tl := by
    rw [ParseBuffer.drop_pos_add, h]; simp
  have hlength : b.bytes.length - b.pos = 4 + tl.length := by
    have hh := congrArg List.length h
    rw [List.length_drop] at hh
    simp at hh
    omega
  have hwf4 : b.pos + 4 ≤ b.bytes.length := by omega
  have hslice := ParseBuffer.slice_char ⟨b.bytes, b.pos + 4⟩ (256 * l1 + l0) hwf4
  simp only at hslice
  rw [h4, if_neg (by omega : ¬ 256 * l1 + l0 ≤ tl.length)] at hslice
  unfold extensionGroupParse
  rw [ExtensionType.parseCaptured_char]
  simp only [h]
  rw [ParseBuffer.readU16_char]
  simp only [h2, show b.pos + 2 + 2 = b.pos + 4 from by omega, hslice]

theorem extensionGroupParse_short {α : Type} (d : ExtensionDispatch α) (b : ParseBuffer)
    (h : (b.bytes.drop b.pos).length < 4) :
    (extensionGroupParse d b).1 = .error .decodeError := by
  have h2 : b.bytes.drop (b.pos + 2) = (b.bytes.drop b.pos).drop 2 :=
    ParseBuffer.drop_pos_add b 2
  unfold extensionGroupParse
  rw [ExtensionType.parseCaptured_char]
  cases hl : b.bytes.drop b.pos with
  | nil =>
    simp only
    rw [ParseBuffer.readU16_char]
    simp [hl]
  | cons t1 t =>
    cases t with
    | nil =>
      simp only
      rw [ParseBuffer.readU16_char]
      simp [hl]
    | cons t0 t2 =>
      rw [hl] at h2
      cases t2 with
      | nil =>
        simp only
        rw [ParseBuffer.readU16_char]
        simp only [h2]
        cases hc : ExtensionType.ofCode (256 * t1 + t0) <;> simp [hc]
      | cons l1 t3 =>
        cases t3 with
        | nil =>
          simp only
          rw [ParseBuffer.readU16_char]
          simp only [h2]
          cases hc : ExtensionType.ofCode (256 * t1 + t0) <;> simp [hc]
        | cons l0 t4 =>
          rw [hl] at h
          simp only [List.length_cons] at h
          omega

theorem extensionGroupParse_shape {α : Type} (d : ExtensionDispatch α) (b : ParseBuffer) :
    (extensionGroupParse d b).1 = .error .decodeError ∨
    ∃ t1 t0 l1 l0 tl, b.bytes.drop b.pos = t1 :: t0 :: l1 :: l0 :: tl ∧
      256 * l1 + l0 ≤ tl.length ∧
      extensionGroupParse d b =
        (extensionGroupOutcome d (ExtensionType.ofCode (256 * t1 + t0))
          (tl.take (256 * l1 + l0)),
         ⟨b.bytes, b.pos + 4 + (256 * l1 + l0)⟩) := by
  rcases hl : b.bytes.drop b.pos with _ | ⟨t1, _ | ⟨t0, _ | ⟨l1, _ | ⟨l0, tl⟩⟩⟩⟩
  · exact Or.inl (extensionGroupParse_short d b (by rw [hl]; simp))
  · exact Or.inl (extensionGroupParse_short d b (by rw [hl]; simp))
  · exact Or.inl (extensionGroupParse_short d b (by rw [hl]; simp))
  · exact Or.inl (extensionGroupParse_short d b (by rw [hl]; simp))
  · by_cases hg : 256 * l1 + l0 ≤ tl.length
    · exact Or.inr ⟨t1, t0, l1, l0, tl, rfl, hg, extensionGroupParse_main d b _ _ _ _ _ hl hg⟩
    · exact Or.inl (extensionGroupParse_overflow d b _ _ _ _ _ hl (by omega))

theorem BufShift.drop_eq {k : Nat} {B S : ParseBuffer} (h : BufShift k B S) :
    B.bytes.drop B.pos = S.bytes.drop S.pos := by
  obtain ⟨hk, hb, hp⟩ := h
  rw [hp, Nat.add_comm, ← List.drop_drop, hb]

theorem BufShift.remaining_eq {k : Nat} {B S : ParseBuffer} (h : BufShift k B S) :
    B.remaining = S.remaining := by
  obtain ⟨hk, hb, hp⟩ := h
  have hlen : S.bytes.length = B.bytes.length - k := by
    rw [← hb, List.length_drop]
  unfold ParseBuffer.remaining
  omega

theorem extensionGroupParse_shift {α : Type} (d : ExtensionDispatch α) {k : Nat}
    {B S : ParseBuffer} (hsh : BufShift k B S) :
    (extensionGroupParse d B).1 = (extensionGroupParse d S).1 ∧
    (((extensionGroupParse d B).1 = .error .unknownExtensionType ∨
      ∃ v, (extensionGroupParse d B).1 = .ok v) →
     BufShift k (extensionGroupParse d B).2 (extensionGroupParse d S).2) := by
  have hdrop := hsh.drop_eq
  rcases hl : B.bytes.drop B.pos with _ | ⟨t1, _ | ⟨t0, _ | ⟨l1, _ | ⟨l0, tl⟩⟩⟩⟩ <;>
    rw [hl] at hdrop
  · have hB := extensionGroupParse_short d B (by rw [hl]; simp)
    have hS := extensionGroupParse_short d S (by rw [← hdrop]; simp)
    refine ⟨hB.trans hS.symm, ?_⟩
    rintro (hh | ⟨v, hh⟩) <;> rw [hB] at hh <;> exact absurd hh (by simp)
  · have hB := extensionGroupParse_short d B (by rw [hl]; simp)
    have hS := extensionGroupParse_short d S (by rw [← hdrop]; simp)
    refine ⟨hB.trans hS.symm, ?_⟩
    rintro (hh | ⟨v, hh⟩) <;> rw [hB] at hh <;> exact absurd hh (by simp)
  · have hB := extensionGroupParse_short d B (by rw [hl]; simp)
    have hS := extensionGroupParse_short d S (by rw [← hdrop]; simp)
    refine ⟨hB.trans hS.symm, ?_⟩
    rintro (hh | ⟨v, hh⟩) <;> rw [hB] at hh <;> exact absurd hh (by simp)
  · have hB := extensionGroupParse_short d B (by rw [hl]; simp)
    have hS := extensionGroupParse_short d S (by rw [← hdrop]; simp)
    refine ⟨hB.trans hS.symm, ?_⟩
    rintro (hh | ⟨v, hh⟩) <;> rw [hB] at hh <;> exact absurd hh (by simp)
  · by_cases hg : 256 * l1 + l0 ≤ tl.length
    · have hB := extensionGroupParse_main d B t1 t0 l1 l0 tl hl hg
      have hS := extensionGroupParse_main d S t1 t0 l1 l0 tl hdrop.symm hg
      obtain ⟨hk, hb, hp⟩ := hsh
      constructor
      · rw [hB, hS]
      · intro _
        rw [hB, hS]
        exact ⟨hk, hb, show B.pos + 4 + (256 * l1 + l0) = S.pos + 4 + (256 * l1 + l0) + k by omega⟩
    · have hB := extensionGroupParse_overflow d B t1 t0 l1 l0 tl hl (by omega)
      have hS := extensionGroupParse_overflow d S t1 t0 l1 l0 tl hdrop.symm (by omega)
      refine ⟨hB.trans hS.symm, ?_⟩
      rintro (hh | ⟨v, hh⟩) <;> rw [hB] at hh <;> exact absurd hh (by simp)

theorem extensionGroupParseVectorLoop_shift {α : Type} (d : ExtensionDispatch α) (cap : Nat)
    {k : Nat} : ∀ (f : Nat) (B S : ParseBuffer) (acc : List α), BufShift k B S →
    extensionGroupParseVectorLoop d cap f B acc = extensionGroupParseVectorLoop d cap f S acc := by
  intro f
  induction f with
  | zero => intro B S acc _; rfl
  | succ f ih =>
    intro B S acc hsh
    have hempty : B.isEmpty = S.isEmpty := by
      unfold ParseBuffer.isEmpty
      rw [hsh.remaining_eq]
    have hparse := extensionGroupParse_shift d hsh
    unfold extensionGroupParseVectorLoop
    rw [hempty]
    by_cases he : S.isEmpty
    · simp [he]
    · simp only [he, if_neg, Bool.false_eq_true, if_false]
      rcases hB : extensionGroupParse d B with ⟨rB, B2⟩
      rcases hS : extensionGroupParse d S with ⟨rS, S2⟩
      have hr : rB = rS := by
        have := hparse.1
        rw [hB, hS] at this
        exact this
      subst hr
      cases rB with
      | ok e =>
        have hsh2 : BufShift k B2 S2 := by
          have := hparse.2 (Or.inr ⟨e, by rw [hB]⟩)
          rw [hB, hS] at this
          exact this
        by_cases hc : acc.length < cap
        · simp only [hc, if_pos]
          exact ih B2 S2 (acc ++ [e]) hsh2
        · simp [hc]
      | error e =>
        cases e with
        | unknownExtensionType =>
          have hsh2 : BufShift k B2 S2 := by
            have := hparse.2 (Or.inl (by rw [hB]))
            rw [hB, hS] at this
            exact this
          exact ih B2 S2 acc hsh2
        | encodeError => rfl
        | decodeError => rfl
        | invalidRecord => rfl
        | invalidHandshake => rfl
        | invalidCipherSuite => rfl
        | invalidSessionIdLength => rfl
        | invalidExtensionsLength => rfl
        | unimplemented => rfl
        | abortHandshake lv de => rfl

theorem extensionGroupParseVectorLoop_fuel {α : Type} (d : ExtensionDispatch α) (cap : Nat) :
    ∀ (f1 f2 : Nat) (b : ParseBuffer) (acc : List α), b.remaining < f1 → b.remaining < f2 →
    extensionGroupParseVectorLoop d cap f1 b acc = extensionGroupParseVectorLoop d cap f2 b acc := by
  intro f1
  induction f1 with
  | zero => intro f2 b acc h1 _; omega
  | succ f1 ih =>
    intro f2 b acc h1 h2
    cases f2 with
    | zero => omega
    | succ f2 =>
      unfold extensionGroupParseVectorLoop
      by_cases he : b.isEmpty
      · simp [he]
      · simp only [he, Bool.false_eq_true, if_false]
        have hne : b.pos < b.bytes.length := by
          unfold ParseBuffer.isEmpty ParseBuffer.remaining at he
          simp at he
          omega
        rcases hb : extensionGroupParse d b with ⟨r, b2⟩
        have hprog : (r = .error .unknownExtensionType ∨ ∃ v, r = .ok v) →
            b2.bytes = b.bytes ∧ b.pos < b2.pos := by
          intro hok
          rcases extensionGroupParse_shape d b with hdec | ⟨t1, t0, l1, l0, tl, hsh, hg, heq⟩
          · rw [hb] at hdec
            simp at hdec
            rcases hok with hok | ⟨v, hok⟩ <;> simp [hdec] at hok
          · rw [hb] at heq
            have hb2 : b2 = ⟨b.bytes, b.pos + 4 + (256 * l1 + l0)⟩ :=
              congrArg Prod.snd heq
            rw [hb2]
            refine ⟨rfl, ?_⟩
            show b.pos < b.pos + 4 + (256 * l1 + l0)
            omega
        cases r with
        | ok e =>
          obtain ⟨hbytes, hpos⟩ := hprog (Or.inr ⟨e, rfl⟩)
          have hrem : b2.remaining < b.remaining := by
            unfold ParseBuffer.remaining
            rw [hbytes]
            omega
          by_cases hc : acc.length < cap
          · simp only [hc, if_pos]
            exact ih f2 b2 (acc ++ [e]) (by omega) (by omega)
          · simp [hc]
        | error e =>
          cases e with
          | unknownExtensionType =>
            obtain ⟨hbytes, hpos⟩ := hprog (Or.inl rfl)
            have hrem : b2.remaining < b.remaining := by
              unfold ParseBuffer.remaining
              rw [hbytes]
              omega
            exact ih f2 b2 acc (by omega) (by omega)
          | encodeError => rfl
          | decodeError => rfl
          | invalidRecord => rfl
          | invalidHandshake => rfl
          | invalidCipherSuite => rfl
          | invalidSessionIdLength => rfl
          | invalidExtensionsLength => rfl
          | unimplemented => rfl
          | abortHandshake lv de => rfl

/-- C5 counterexample: the claim says the header content type of a record
sent in the clear equals the record's true content type — `Alert` for alert
records — but `header_content_type` maps a cleartext Alert record to
`ChangeCipherSpec` (`record.rs` line 49). -/
theorem c5_cleartext_alert_header_not_alert :
    ClientRecordHeader.headerContentType (.alert false) ≠ ContentType.alert := by
  decide

/-- C5 (amended): for records sent in the clear the header content type is
`Handshake` for handshake records but `ChangeCipherSpec` for alert records;
the legacy version bytes are `0x0301` for cleartext Handshake and Alert
records and `0x0303` otherwise. -/
theorem c5_cleartext_header_fields :
    ClientRecordHeader.headerContentType (.handshake false) = ContentType.handshake ∧
    ClientRecordHeader.headerContentType (.alert false) = ContentType.changeCipherSpec ∧
    ClientRecordHeader.version (.handshake false) = [0x03, 0x01] ∧
    ClientRecordHeader.version (.alert false) = [0x03, 0x01] ∧
    ClientRecordHeader.version (.handshake true) = [0x03, 0x03] ∧
    ClientRecordHeader.version (.alert true) = [0x03, 0x03] ∧
    ClientRecordHeader.version .applicationData = [0x03, 0x03] := by
  decide

/-- C7 counterexample: parsing the single byte `00` as a
`SupportedVersionsClientHello` does not yield `InvalidData` (it succeeds
with an empty version list). -/
theorem c7_parse_empty_list_not_invalid :
    SupportedVersionsClientHello.parse (ParseBuffer.new [0x00]) ≠
      .error ParseError.invalidData := by
  intro hc
  rw [show SupportedVersionsClientHello.parse (ParseBuffer.new [0x00]) =
        .ok ([], ⟨[0x00], 1⟩) from rfl] at hc
  exact Except.noConfusion hc

/-- C7 (amended): encoding a `SupportedVersionsClientHello` containing the
single version `0x0304` produces the bytes `02 03 04`; parsing the single
byte `00` succeeds with an empty version list (the parser itself does not
require `0x0304` to be present). -/
theorem c7_supported_versions_codec :
    SupportedVersionsClientHello.encode [0x0304] = .ok [0x02, 0x03, 0x04] ∧
    SupportedVersionsClientHello.parse (ParseBuffer.new [0x00]) =
      .ok ([], ⟨[0x00], 1⟩) := by
  constructor
  · rfl
  · rfl

/-- C4: on the wire input whose identity region holds exactly one
`PskIdentity` (empty identity, ticket age 0) and whose binder region holds
exactly one binder, `PreSharedKeyClientHello::parse` returns `InvalidData`
even though both lists parse and have one element each: the generated
`PskIdentityList::len` counts length-prefixed units without skipping the
`u32 obfuscated_ticket_age`, so it reports 3 for this one-identity region
while `Binders::len` correctly reports 1. -/
theorem c4_equal_length_lists_rejected :
    PreSharedKeyClientHello.parse (ParseBuffer.new
      [0x00, 0x08, 0x00, 0x06, 0x00, 0x00, 0x00, 0x00, 0x00, 0x00,
       0x00, 0x04, 0x00, 0x02, 0x01, 0xAA]) = .error .invalidData ∧
    PskIdentity.parse (ParseBuffer.new [0x00, 0x00, 0x00, 0x00, 0x00, 0x00]) =
      .ok ({ identity := [], obfuscatedTicketAge := 0 }, ⟨[0, 0, 0, 0, 0, 0], 6⟩) ∧
    SliceU8.parse (ParseBuffer.new [0x01, 0xAA]) = .ok ([0xAA], ⟨[1, 0xAA], 2⟩) ∧
    PskIdentityList.len [0x00, 0x00, 0x00, 0x00, 0x00, 0x00] = 3 ∧
    Binders.len [0x01, 0xAA] = 1 := by
  refine ⟨rfl, rfl, rfl, rfl, rfl⟩

/-- C6 counterexample: a ServerHello whose legacy compression-method byte
is `0x01` is parsed successfully — `RemoteServerHello::parse` reads the
byte and discards it without checking that it is zero (`remote_hello.rs`
line 43). -/
theorem c6_nonzero_compression_accepted :
    RemoteServerHello.parse (ParseBuffer.new (serverHelloWire 1)) =
      .ok ({ extensions := [] }, ⟨serverHelloWire 1, 40⟩) := by
  rfl

/-- C6 (amended): `RemoteServerHello::parse` does not inspect the legacy
compression-method byte: for every byte value `c`, the same ServerHello
with compression byte `c` parses successfully. -/
theorem c6_compression_byte_ignored (c : Nat) (_hc : c < 256) :
    RemoteServerHello.parse (ParseBuffer.new (serverHelloWire c)) =
      .ok ({ extensions := [] }, ⟨serverHelloWire c, 40⟩) := by
  rfl

theorem c6_compression_byte_ignored_witness :
    RemoteServerHello.parse (ParseBuffer.new (serverHelloWire 1)) =
      .ok ({ extensions := [] }, ⟨serverHelloWire 1, 40⟩) :=
  c6_compression_byte_ignored 1 (by decide)

/-- C8 counterexample: the name `"a."` — ASCII bytes `61 2E`, ending in a
dot — parses successfully, although the claim says a name ending in `'.'`
yields `InvalidData`; `ServerName::parse` checks only `is_ascii`
(`server_name.rs` line 55). -/
theorem c8_trailing_dot_accepted :
    ServerName.parse (ParseBuffer.new [0x00, 0x00, 0x02, 0x61, 0x2E]) =
      .ok ({ nameType := .hostName, name := [0x61, 0x2E] },
           ⟨[0x00, 0x00, 0x02, 0x61, 0x2E], 5⟩) := by
  rfl

/-- C8 (amended): `ServerName::parse` returns Ok exactly for inputs whose
name type byte is 0 and whose `u16`-prefixed name bytes are all ASCII —
a trailing dot is *not* rejected; a nonzero type byte or a non-ASCII name
byte yields `InvalidData`. -/
theorem c8_server_name_parse_characterization (t : Nat) (name rest : List Nat)
    (ht : t < 256) (hlen : name.length ≤ 65535) :
    ServerName.parse (ParseBuffer.new (t :: u16Bytes name.length ++ name ++ rest)) =
      if t = 0 then
        (if name.all (fun c => c < 128) then
          .ok ({ nameType := .hostName, name },
               ⟨t :: u16Bytes name.length ++ name ++ rest, 3 + name.length⟩)
        else .error .invalidData)
      else .error .invalidData := by
  have hdiv : name.length / 256 % 256 = name.length / 256 :=
    Nat.mod_eq_of_lt (by omega)
  have hL : 256 * (name.length / 256 % 256) + name.length % 256 = name.length := by
    rw [hdiv]
    exact Nat.div_add_mod name.length 256
  cases t with
  | succ n =>
    unfold ServerName.parse NameType.parse
    rw [ParseBuffer.readU8_char]
    simp [ParseBuffer.new]
  | zero =>
    rw [if_pos (show (0 : Nat) = 0 from rfl)]
    unfold ServerName.parse NameType.parse
    rw [ParseBuffer.readU8_char]
    simp only [ParseBuffer.new, List.drop_zero, List.cons_append]
    rw [ParseBuffer.readU16_char]
    simp only [u16Bytes, List.cons_append, List.drop_succ_cons, List.drop_zero, hL]
    have hslice : (⟨0 :: name.length / 256 % 256 :: name.length % 256 :: ([] ++ name ++ rest),
          0 + 1 + 2⟩ : ParseBuffer).slice name.length =
        .ok (⟨name, 0⟩, ⟨0 :: name.length / 256 % 256 :: name.length % 256 :: ([] ++ name ++ rest),
          3 + name.length⟩) := by
      unfold ParseBuffer.slice
      rw [if_pos (by simp; omega)]
      simp only [List.drop_succ_cons, List.drop_zero, List.nil_append, List.take_left]
    rw [hslice]
    rfl

theorem c8_server_name_parse_characterization_witness :
    ServerName.parse (ParseBuffer.new (0 :: u16Bytes 2 ++ [0x61, 0x2E] ++ [])) =
      if 0 = 0 then
        (if ([0x61, 0x2E] : List Nat).all (fun c => c < 128) then
          .ok ({ nameType := .hostName, name := [0x61, 0x2E] },
               ⟨0 :: u16Bytes 2 ++ [0x61, 0x2E] ++ [], 3 + 2⟩)
        else .error .invalidData)
      else .error .invalidData := by
  exact c8_server_name_parse_characterization 0 [0x61, 0x2E] [] (by decide) (by decide)

theorem NamedGroup.parse_encode (g : NamedGroup) (tail : List Nat) :
    NamedGroup.parse (ParseBuffer.new (u16Bytes g.asU16 ++ tail)) =
      .ok (g, ⟨u16Bytes g.asU16 ++ tail, 2⟩) := by
  cases g <;> rfl

theorem NamedGroup.parse_inv {b : ParseBuffer} {g : NamedGroup} {b2 : ParseBuffer}
    (h : NamedGroup.parse b = .ok (g, b2)) :
    b2 = ⟨b.bytes, b.pos + 2⟩ ∧
    ∃ h0 h1 tl, b.bytes.drop b.pos = h0 :: h1 :: tl ∧ 256 * h0 + h1 = g.asU16 := by
  unfold NamedGroup.parse at h
  cases hv : b.readU16 with
  | error e => rw [hv] at h; exact absurd h (by simp)
  | ok p =>
    obtain ⟨v, b3⟩ := p
    rw [hv] at h
    rw [ParseBuffer.readU16_char] at hv
    rcases hl : b.bytes.drop b.pos with _ | ⟨h0, _ | ⟨h1, tl⟩⟩ <;> rw [hl] at hv
    · exact absurd hv (by simp)
    · exact absurd hv (by simp)
    · simp only [Except.ok.injEq, Prod.mk.injEq] at hv
      obtain ⟨hvv, hvb⟩ := hv
      subst hvv
      subst hvb
      split at h
      · exact absurd h (by simp)
      · rename_i lo bsub heq
        simp only [Except.ok.injEq, Prod.mk.injEq] at heq
        obtain ⟨hlo, hbs⟩ := heq
        subst hlo
        subst hbs
        split at h <;>
          first
            | (injection h with h2
               injection h2 with hg hb
               subst hg
               subst hb
               exact ⟨rfl, h0, h1, tl, rfl, by simp [NamedGroup.asU16]; omega⟩)
            | injection h

theorem keyShareEncodeThenParse (e : KeyShareEntry) (bytes : List Nat)
    (h : KeyShareEntry.encode e = .ok bytes) :
    KeyShareEntry.parse (ParseBuffer.new bytes) = .ok (e, ⟨bytes, bytes.length⟩) := by
  obtain ⟨g, kx⟩ := e
  unfold KeyShareEntry.encode NamedGroup.encode withU16Length at h
  dsimp only at h
  by_cases hlen : kx.length ≤ 65535
  · rw [if_pos hlen] at h
    dsimp only at h
    injection h with h2
    subst h2
    have hdiv : kx.length / 256 % 256 = kx.length / 256 :=
      Nat.mod_eq_of_lt (by omega)
    have hL : 256 * (kx.length / 256 % 256) + kx.length % 256 = kx.length := by
      rw [hdiv]
      exact Nat.div_add_mod kx.length 256
    unfold KeyShareEntry.parse
    rw [NamedGroup.parse_encode g (u16Bytes kx.length ++ kx)]
    dsimp only
    rw [ParseBuffer.readU16_char]
    simp only [u16Bytes, List.cons_append, List.nil_append, List.drop_succ_cons,
      List.drop_zero, hL]
    have hslice : (⟨g.asU16 / 256 % 256 :: g.asU16 % 256 ::
          kx.length / 256 % 256 :: kx.length % 256 :: kx, 2 + 2⟩ : ParseBuffer).slice
          kx.length =
        .ok (⟨kx, 0⟩, ⟨g.asU16 / 256 % 256 :: g.asU16 % 256 ::
          kx.length / 256 % 256 :: kx.length % 256 :: kx, 2 + 2 + kx.length⟩) := by
      unfold ParseBuffer.slice
      rw [if_pos (by simp; omega)]
      simp
    rw [hslice]
    simp [ParseBuffer.asSlice]
    omega
  · rw [if_neg hlen] at h
    dsimp only at h
    injection h

theorem keyShareParseThenEncode (bytes : List Nat) (e : KeyShareEntry) (b2 : ParseBuffer)
    (hbytes : ∀ c ∈ bytes, c < 256)
    (hp : KeyShareEntry.parse (ParseBuffer.new bytes) = .ok (e, b2))
    (hpos : b2.pos = bytes.length) :
    KeyShareEntry.encode e = .ok bytes := by
  unfold KeyShareEntry.parse at hp
  cases hng : NamedGroup.parse (ParseBuffer.new bytes) with
  | error er =>
    rw [hng] at hp
    exact absurd hp (by simp)
  | ok p =>
    obtain ⟨g, b3⟩ := p
    rw [hng] at hp
    dsimp only at hp
    obtain ⟨hb3, h0, h1, tl, hdrop, hcode⟩ := NamedGroup.parse_inv hng
    simp only [ParseBuffer.new, List.drop_zero] at hdrop
    subst hdrop
    subst hb3
    rw [ParseBuffer.readU16_char] at hp
    simp only [ParseBuffer.new, List.drop_succ_cons, List.drop_zero] at hp
    have hh0 : h0 < 256 := hbytes h0 (by simp)
    have hh1 : h1 < 256 := hbytes h1 (by simp)
    rcases tl with _ | ⟨l1, _ | ⟨l0, tl2⟩⟩
    · exact absurd hp (by simp)
    · exact absurd hp (by simp)
    · have hl1 : l1 < 256 := hbytes l1 (by simp)
      have hl0 : l0 < 256 := hbytes l0 (by simp)
      dsimp only at hp
      cases hs : (⟨h0 :: h1 :: l1 :: l0 :: tl2, 0 + 2 + 2⟩ : ParseBuffer).slice
          (256 * l1 + l0) with
      | error er =>
        rw [hs] at hp
        exact absurd hp (by simp)
      | ok q =>
        obtain ⟨sub, b4⟩ := q
        rw [hs] at hp
        dsimp only at hp
        injection hp with hp1
        injection hp1 with he hb
        subst he
        subst hb
        unfold ParseBuffer.slice at hs
        by_cases hg4 : 0 + 2 + 2 + (256 * l1 + l0) ≤ (h0 :: h1 :: l1 :: l0 :: tl2).length
        · rw [if_pos hg4] at hs
          injection hs with hs1
          injection hs1 with hsub hb4
          subst hsub
          subst hb4
          have hlen2 : 256 * l1 + l0 = tl2.length := by
            simp only [List.length_cons] at hpos
            omega
          have hdrop4 : (h0 :: h1 :: l1 :: l0 :: tl2).drop (0 + 2 + 2) = tl2 := rfl
          rw [hdrop4, hlen2, List.take_length]
          unfold KeyShareEntry.encode NamedGroup.encode withU16Length
          dsimp only [ParseBuffer.asSlice]
          rw [if_pos (by omega)]
          simp only [u16Bytes, List.cons_append, List.nil_append, Except.ok.injEq,
            List.cons.injEq]
          refine ⟨by omega, by omega, by omega, by omega, trivial⟩
        · rw [if_neg hg4] at hs
          exact absurd hs (by simp)

/-- C9: the `KeyShareEntry` codec round-trips.  Parsing the bytes produced
by a successful `encode` yields the entry back with the whole input
consumed; re-encoding the result of a successful full-input `parse` of a
valid wire input (bytes, a known group codepoint, a `u16` length and that
many key-exchange bytes) reproduces the input exactly; and the concrete
input `00 17 00 02 AA BB` parses to Secp256r1 with key-exchange bytes
`AA BB` and re-encodes to the same six bytes. -/
theorem c9_key_share_entry_round_trip :
    (∀ (e : KeyShareEntry) (bytes : List Nat), KeyShareEntry.encode e = .ok bytes →
      KeyShareEntry.parse (ParseBuffer.new bytes) = .ok (e, ⟨bytes, bytes.length⟩)) ∧
    (∀ (bytes : List Nat) (e : KeyShareEntry) (b2 : ParseBuffer),
      (∀ c ∈ bytes, c < 256) →
      KeyShareEntry.parse (ParseBuffer.new bytes) = .ok (e, b2) →
      b2.pos = bytes.length →
      KeyShareEntry.encode e = .ok bytes) ∧
    KeyShareEntry.parse (ParseBuffer.new [0x00, 0x17, 0x00, 0x02, 0xAA, 0xBB]) =
      .ok ({ group := .secp256r1, keyExchange := [0xAA, 0xBB] },
           ⟨[0x00, 0x17, 0x00, 0x02, 0xAA, 0xBB], 6⟩) ∧
    KeyShareEntry.encode { group := .secp256r1, keyExchange := [0xAA, 0xBB] } =
      .ok [0x00, 0x17, 0x00, 0x02, 0xAA, 0xBB] :=
  ⟨keyShareEncodeThenParse, keyShareParseThenEncode, rfl, rfl⟩

theorem c9_key_share_entry_round_trip_witness :
    KeyShareEntry.parse (ParseBuffer.new [0x00, 0x17, 0x00, 0x02, 0xAA, 0xBB]) =
      .ok ({ group := .secp256r1, keyExchange := [0xAA, 0xBB] },
           ⟨[0x00, 0x17, 0x00, 0x02, 0xAA, 0xBB], 6⟩) :=
  c9_key_share_entry_round_trip.1
    { group := .secp256r1, keyExchange := [0xAA, 0xBB] }
    [0x00, 0x17, 0x00, 0x02, 0xAA, 0xBB] rfl

/-- C10: whenever the generated per-message extension parser returns `Ok`
or the skippable `UnknownExtensionType` (i.e. any outcome other than a hard
error), the input began with a `u16` type word, a `u16` length word and at
least that many data bytes, and the parser consumed exactly
`4 + extension_length` bytes of the outer buffer; the outcome is computed by
running the dispatched body parser on just the sliced data, so a body
parser that consumes fewer than `extension_length` bytes leaves the
trailing data bytes silently discarded while the extension is still
accepted. -/
theorem c10_extension_parse_consumption {α : Type} (d : ExtensionDispatch α) (b : ParseBuffer)
    (hok : (extensionGroupParse d b).1 = .error .unknownExtensionType ∨
           ∃ v, (extensionGroupParse d b).1 = .ok v) :
    ∃ t1 t0 l1 l0 tl, b.bytes.drop b.pos = t1 :: t0 :: l1 :: l0 :: tl ∧
      256 * l1 + l0 ≤ tl.length ∧
      (extensionGroupParse d b).2 = ⟨b.bytes, b.pos + 4 + (256 * l1 + l0)⟩ ∧
      (extensionGroupParse d b).1 =
        extensionGroupOutcome d (ExtensionType.ofCode (256 * t1 + t0))
          (tl.take (256 * l1 + l0)) := by
  rcases extensionGroupParse_shape d b with hdec | ⟨t1, t0, l1, l0, tl, hsh, hg, heq⟩
  · rcases hok with hok | ⟨v, hok⟩ <;> rw [hdec] at hok <;> simp at hok
  · exact ⟨t1, t0, l1, l0, tl, hsh, hg, congrArg Prod.snd heq, by rw [heq]⟩

theorem c10_extension_parse_consumption_witness :
    ∃ t1 t0 l1 l0 tl,
      (ParseBuffer.new [0, 2, 0, 1, 171]).bytes.drop (ParseBuffer.new [0, 2, 0, 1, 171]).pos =
        t1 :: t0 :: l1 :: l0 :: tl ∧
      256 * l1 + l0 ≤ tl.length ∧
      (extensionGroupParse eeDispatch (ParseBuffer.new [0, 2, 0, 1, 171])).2 =
        ⟨(ParseBuffer.new [0, 2, 0, 1, 171]).bytes,
         (ParseBuffer.new [0, 2, 0, 1, 171]).pos + 4 + (256 * l1 + l0)⟩ ∧
      (extensionGroupParse eeDispatch (ParseBuffer.new [0, 2, 0, 1, 171])).1 =
        extensionGroupOutcome eeDispatch (ExtensionType.ofCode (256 * t1 + t0))
          (tl.take (256 * l1 + l0)) :=
  c10_extension_parse_consumption eeDispatch (ParseBuffer.new [0, 2, 0, 1, 171]) (Or.inl rfl)

/-- C1: whenever `RemoteHandshake::read` succeeds, the new transcript state
is the old one extended — exactly once — with precisely the raw wire bytes
`[start, end)` the parsed message's header and body occupied in the record
buffer; and when the message is a Finished, the digest stored on it is the
snapshot of the transcript *before* those Finished bytes are fed, i.e. the
hash of all handshake-message wire bytes up to but not including that
Finished. -/
theorem c1_transcript_fed_once_finished_snapshot (buf : ParseBuffer) (digest : List Nat)
    (hs : RemoteHandshakeMsg) (buf2 : ParseBuffer) (digest2 : List Nat)
    (h : RemoteHandshake.read buf digest = .ok (hs, buf2, digest2)) :
    digest2 = digest ++ ((buf2.asSlice.take buf2.pos).drop buf.pos) ∧
    (∀ f, hs = .finished f → f.hash = some (Transcript.finalize digest)) := by
  unfold RemoteHandshake.read at h
  cases hp : RemoteHandshake.parse buf with
  | error e =>
    rw [hp] at h
    exact absurd h (by simp)
  | ok p =>
    obtain ⟨hs0, b2⟩ := p
    rw [hp] at h
    dsimp only at h
    injection h with h1
    injection h1 with hhs h2
    injection h2 with hbuf hdig
    subst hbuf
    subst hdig
    subst hhs
    constructor
    · rfl
    · intro f hf
      cases hs0 with
      | finished f0 =>
        injection hf with hf1
        subst hf1
        rfl
      | serverHello x => exact absurd hf (by simp)
      | encryptedExtensions x => exact absurd hf (by simp)
      | newSessionTicket x => exact absurd hf (by simp)
      | certificate x => exact absurd hf (by simp)
      | certificateRequest x => exact absurd hf (by simp)
      | certificateVerify x => exact absurd hf (by simp)

theorem c1_transcript_fed_once_finished_snapshot_witness :
    ([1, 2, 3, 20, 0, 0, 2, 170, 187] : List Nat) =
      [1, 2, 3] ++ (((ParseBuffer.mk [20, 0, 0, 2, 170, 187] 6).asSlice.take 6).drop 0) ∧
    (∀ f, RemoteHandshakeMsg.finished ⟨[170, 187], some ⟨[1, 2, 3]⟩⟩ =
        RemoteHandshakeMsg.finished f →
      f.hash = some (Transcript.finalize [1, 2, 3])) :=
  c1_transcript_fed_once_finished_snapshot (ParseBuffer.new [20, 0, 0, 2, 170, 187]) [1, 2, 3]
    (.finished ⟨[170, 187], some ⟨[1, 2, 3]⟩⟩) (ParseBuffer.mk [20, 0, 0, 2, 170, 187] 6)
    [1, 2, 3, 20, 0, 0, 2, 170, 187] rfl

theorem extensionGroupParseVector_eval {α : Type} (d : ExtensionDispatch α) (cap : Nat)
    (content : List Nat) (hlen : content.length ≤ 65535) :
    extensionGroupParseVector d cap (ParseBuffer.new (u16Bytes content.length ++ content)) =
      (extensionGroupParseVectorLoop d cap (content.length + 1) ⟨content, 0⟩ [],
       ⟨u16Bytes content.length ++ content, 2 + content.length⟩) := by
  have hdiv : content.length / 256 % 256 = content.length / 256 :=
    Nat.mod_eq_of_lt (by omega)
  have hL : 256 * (content.length / 256 % 256) + content.length % 256 = content.length := by
    rw [hdiv]
    exact Nat.div_add_mod content.length 256
  unfold extensionGroupParseVector
  rw [ParseBuffer.readU16_char]
  simp only [ParseBuffer.new, u16Bytes, List.cons_append, List.nil_append,
    List.drop_succ_cons, List.drop_zero, hL]
  have hslice : (⟨content.length / 256 % 256 :: content.length % 256 :: content,
        0 + 2⟩ : ParseBuffer).slice content.length =
      .ok (⟨content, 0⟩, ⟨content.length / 256 % 256 :: content.length % 256 :: content,
        0 + 2 + content.length⟩) := by
    unfold ParseBuffer.slice
    rw [if_pos (by simp; omega)]
    simp
  rw [hslice]
  dsimp only
  have hrem : (⟨content, 0⟩ : ParseBuffer).remaining = content.length := by
    simp [ParseBuffer.remaining]
  rw [hrem]

/-- C2: a well-formed extension (valid `u16` type word, `u16` length word,
and that many data bytes) whose type codepoint is outside the supported
IANA subset makes the generated per-message parser return
`UnknownExtensionType` with the extension's data already consumed
(`4 + length` bytes); and the generated `parse_vector` skips it: the vector
parsed with the unknown extension at the front equals the vector parsed
without it, so the unknown extension is absent from the result and the
remaining extensions still parse. -/
theorem c2_unknown_extension_skipped {α : Type} (d : ExtensionDispatch α) (cap : Nat)
    (t : Nat) (dat rest : List Nat)
    (ht : t < 65536) (hunknown : ExtensionType.ofCode t = none)
    (hdat : dat.length ≤ 65535)
    (htotal : 4 + dat.length + rest.length ≤ 65535) :
    extensionGroupParse d (ParseBuffer.new
        (u16Bytes t ++ u16Bytes dat.length ++ dat ++ rest)) =
      (.error .unknownExtensionType,
       ⟨u16Bytes t ++ u16Bytes dat.length ++ dat ++ rest, 4 + dat.length⟩) ∧
    (extensionGroupParseVector d cap (ParseBuffer.new
        (u16Bytes (4 + dat.length + rest.length) ++
         (u16Bytes t ++ u16Bytes dat.length ++ dat ++ rest)))).1 =
    (extensionGroupParseVector d cap (ParseBuffer.new (u16Bytes rest.length ++ rest))).1 := by
  have hdivt : t / 256 % 256 = t / 256 := Nat.mod_eq_of_lt (by omega)
  have hLt : 256 * (t / 256 % 256) + t % 256 = t := by
    rw [hdivt]
    exact Nat.div_add_mod t 256
  have hdivd : dat.length / 256 % 256 = dat.length / 256 := Nat.mod_eq_of_lt (by omega)
  have hLd : 256 * (dat.length / 256 % 256) + dat.length % 256 = dat.length := by
    rw [hdivd]
    exact Nat.div_add_mod dat.length 256
  have hmain := extensionGroupParse_main d
    (ParseBuffer.new (u16Bytes t ++ u16Bytes dat.length ++ dat ++ rest))
    (t / 256 % 256) (t % 256) (dat.length / 256 % 256) (dat.length % 256) (dat ++ rest)
    (by simp [ParseBuffer.new, u16Bytes])
    (by rw [hLd]; simp)
  rw [hLt, hLd, hunknown] at hmain
  rw [List.take_left] at hmain
  have hparse : extensionGroupParse d (ParseBuffer.new
      (u16Bytes t ++ u16Bytes dat.length ++ dat ++ rest)) =
      (.error .unknownExtensionType,
       ⟨u16Bytes t ++ u16Bytes dat.length ++ dat ++ rest, 4 + dat.length⟩) := by
    rw [hmain]
    simp [extensionGroupOutcome, ParseBuffer.new]
  refine ⟨hparse, ?_⟩
  have hclen : (u16Bytes t ++ u16Bytes dat.length ++ dat ++ rest).length
      = 4 + dat.length + rest.length := by
    simp [u16Bytes]
    omega
  rw [show u16Bytes (4 + dat.length + rest.length) =
      u16Bytes (u16Bytes t ++ u16Bytes dat.length ++ dat ++ rest).length from by rw [hclen]]
  rw [extensionGroupParseVector_eval d cap _ (by rw [hclen]; omega)]
  rw [extensionGroupParseVector_eval d cap rest (by omega)]
  dsimp only
  rw [hclen]
  rw [show extensionGroupParseVectorLoop d cap (4 + dat.length + rest.length + 1)
        ⟨u16Bytes t ++ u16Bytes dat.length ++ dat ++ rest, 0⟩ [] =
      (if (⟨u16Bytes t ++ u16Bytes dat.length ++ dat ++ rest, 0⟩ : ParseBuffer).isEmpty
       then .ok []
       else match extensionGroupParse d
          ⟨u16Bytes t ++ u16Bytes dat.length ++ dat ++ rest, 0⟩ with
        | (.ok e, b2) =>
          if ([] : List α).length < cap then
            extensionGroupParseVectorLoop d cap (4 + dat.length + rest.length) b2 ([] ++ [e])
          else .error .decodeError
        | (.error .unknownExtensionType, b2) =>
          extensionGroupParseVectorLoop d cap (4 + dat.length + rest.length) b2 []
        | (.error e, _) => .error e) from rfl]
  unfold ParseBuffer.new at hparse
  rw [hparse]
  rw [if_neg (by simp [ParseBuffer.isEmpty, ParseBuffer.remaining, u16Bytes])]
  dsimp only
  have hshift : BufShift (4 + dat.length)
      ⟨u16Bytes t ++ u16Bytes dat.length ++ dat ++ rest, 4 + dat.length⟩ ⟨rest, 0⟩ := by
    refine ⟨?_, ?_, ?_⟩
    · show 4 + dat.length ≤ (u16Bytes t ++ u16Bytes dat.length ++ dat ++ rest).length
      rw [hclen]
      omega
    · show (u16Bytes t ++ u16Bytes dat.length ++ dat ++ rest).drop (4 + dat.length) = rest
      rw [← List.drop_drop]
      simp only [u16Bytes, List.cons_append, List.nil_append, List.drop_succ_cons,
        List.drop_zero, List.drop_left]
    · show 4 + dat.length = 0 + (4 + dat.length)
      omega
  rw [extensionGroupParseVectorLoop_fuel d cap (4 + dat.length + rest.length)
      (rest.length + 1) ⟨u16Bytes t ++ u16Bytes dat.length ++ dat ++ rest, 4 + dat.length⟩ []
      (by simp [ParseBuffer.remaining, u16Bytes]; omega)
      (by simp [ParseBuffer.remaining, u16Bytes]; omega)]
  rw [extensionGroupParseVectorLoop_shift d cap (rest.length + 1)
      ⟨u16Bytes t ++ u16Bytes dat.length ++ dat ++ rest, 4 + dat.length⟩ ⟨rest, 0⟩ [] hshift]

theorem c2_unknown_extension_skipped_witness :
    extensionGroupParse eeDispatch (ParseBuffer.new
        (u16Bytes 2 ++ u16Bytes ([171] : List Nat).length ++ [171] ++ [0, 42, 0, 0])) =
      (.error .unknownExtensionType,
       ⟨u16Bytes 2 ++ u16Bytes ([171] : List Nat).length ++ [171] ++ [0, 42, 0, 0],
        4 + ([171] : List Nat).length⟩) ∧
    (extensionGroupParseVector eeDispatch 8 (ParseBuffer.new
        (u16Bytes (4 + ([171] : List Nat).length + ([0, 42, 0, 0] : List Nat).length) ++
         (u16Bytes 2 ++ u16Bytes ([171] : List Nat).length ++ [171] ++ [0, 42, 0, 0])))).1 =
    (extensionGroupParseVector eeDispatch 8 (ParseBuffer.new
        (u16Bytes ([0, 42, 0, 0] : List Nat).length ++ [0, 42, 0, 0]))).1 :=
  c2_unknown_extension_skipped eeDispatch 8 2 [171] [0, 42, 0, 0]
    (by decide) rfl (by decide) (by decide)

theorem ExtensionType.ofCode_code (t : ExtensionType) :
    ExtensionType.ofCode t.code = some t := by
  cases t <;> rfl

theorem ExtensionType.code_le (t : ExtensionType) : t.code ≤ 65535 := by
  cases t <;> decide

theorem extensionGroupParseVectorLoop_succ {α : Type} (d : ExtensionDispatch α)
    (cap fuel : Nat) (b : ParseBuffer) (acc : List α) :
    extensionGroupParseVectorLoop d cap (fuel + 1) b acc =
      (if b.isEmpty then .ok acc
       else match extensionGroupParse d b with
        | (.ok e, b2) =>
          if acc.length < cap then extensionGroupParseVectorLoop d cap fuel b2 (acc ++ [e])
          else .error .decodeError
        | (.error .unknownExtensionType, b2) => extensionGroupParseVectorLoop d cap fuel b2 acc
        | (.error e, _) => .error e) := rfl

/-- C3: a well-formed extension whose type is recognized by the
implementation but has no variant in the `EncryptedExtensionsExtension`
group — in particular `KeyShare`, which the last conjunct shows has no
arm in this message's dispatch — makes the generated parser return
`TlsError::AbortHandshake(Fatal, IllegalParameter)`, and `parse_vector`
propagates that error instead of skipping. -/
theorem c3_recognized_invalid_extension_aborts (t : ExtensionType)
    (hinvalid : eeDispatch t = none) (cap : Nat) (dat rest : List Nat)
    (hdat : dat.length ≤ 65535) (htotal : 4 + dat.length + rest.length ≤ 65535) :
    (EncryptedExtensionsExtension.parse (ParseBuffer.new
        (u16Bytes t.code ++ u16Bytes dat.length ++ dat ++ rest))).1 =
      .error (.abortHandshake .fatal .illegalParameter) ∧
    (EncryptedExtensionsExtension.parseVector cap (ParseBuffer.new
        (u16Bytes (4 + dat.length + rest.length) ++
         (u16Bytes t.code ++ u16Bytes dat.length ++ dat ++ rest)))).1 =
      .error (.abortHandshake .fatal .illegalParameter) ∧
    eeDispatch .keyShare = none := by
  have htc : t.code ≤ 65535 := ExtensionType.code_le t
  have hdivt : t.code / 256 % 256 = t.code / 256 := Nat.mod_eq_of_lt (by omega)
  have hLt : 256 * (t.code / 256 % 256) + t.code % 256 = t.code := by
    rw [hdivt]
    exact Nat.div_add_mod t.code 256
  have hdivd : dat.length / 256 % 256 = dat.length / 256 := Nat.mod_eq_of_lt (by omega)
  have hLd : 256 * (dat.length / 256 % 256) + dat.length % 256 = dat.length := by
    rw [hdivd]
    exact Nat.div_add_mod dat.length 256
  have hmain := extensionGroupParse_main eeDispatch
    (ParseBuffer.new (u16Bytes t.code ++ u16Bytes dat.length ++ dat ++ rest))
    (t.code / 256 % 256) (t.code % 256) (dat.length / 256 % 256) (dat.length % 256)
    (dat ++ rest)
    (by simp [ParseBuffer.new, u16Bytes])
    (by rw [hLd]; simp)
  rw [hLt, hLd, ExtensionType.ofCode_code] at hmain
  have hparse : extensionGroupParse eeDispatch (ParseBuffer.new
      (u16Bytes t.code ++ u16Bytes dat.length ++ dat ++ rest)) =
      (.error (.abortHandshake .fatal .illegalParameter),
       ⟨u16Bytes t.code ++ u16Bytes dat.length ++ dat ++ rest, 4 + dat.length⟩) := by
    rw [hmain]
    simp [extensionGroupOutcome, hinvalid, ParseBuffer.new]
  refine ⟨?_, ?_, rfl⟩
  · unfold EncryptedExtensionsExtension.parse
    rw [hparse]
  · unfold EncryptedExtensionsExtension.parseVector
    have hclen : (u16Bytes t.code ++ u16Bytes dat.length ++ dat ++ rest).length
        = 4 + dat.length + rest.length := by
      simp [u16Bytes]
      omega
    rw [show u16Bytes (4 + dat.length + rest.length) =
        u16Bytes (u16Bytes t.code ++ u16Bytes dat.length ++ dat ++ rest).length from by
      rw [hclen]]
    rw [extensionGroupParseVector_eval eeDispatch cap _ (by rw [hclen]; omega)]
    dsimp only
    rw [hclen]
    rw [extensionGroupParseVectorLoop_succ]
    unfold ParseBuffer.new at hparse
    rw [hparse]
    rw [if_neg (by simp [ParseBuffer.isEmpty, ParseBuffer.remaining, u16Bytes])]

theorem c3_recognized_invalid_extension_aborts_witness :
    (EncryptedExtensionsExtension.parse (ParseBuffer.new
        (u16Bytes ExtensionType.keyShare.code ++ u16Bytes ([170] : List Nat).length ++
         [170] ++ []))).1 =
      .error (.abortHandshake .fatal .illegalParameter) ∧
    (EncryptedExtensionsExtension.parseVector 8 (ParseBuffer.new
        (u16Bytes (4 + ([170] : List Nat).length + ([] : List Nat).length) ++
         (u16Bytes ExtensionType.keyShare.code ++ u16Bytes ([170] : List Nat).length ++
          [170] ++ [])))).1 =
      .error (.abortHandshake .fatal .illegalParameter) ∧
    eeDispatch .keyShare = none :=
  c3_recognized_invalid_extension_aborts .keyShare rfl 8 [170] [] (by decide) (by decide)
